import Mathlib

/-!
# garden-systemd `init/wshd.c` and `init/wsh.c`

A shallow embedding of the in-container execution daemon (`wshd`) and its
client (`wsh`): the environment helpers, the forked child's set-up, the
pid-to-fd registry and the reaper, the session handlers over an explicit
descriptor table, and the client's pump loop.

Conventions.
* A C string is the list of its characters before the terminating NUL.
* A `char **` vector is `Option (List CStr)`: `none` is the NULL pointer,
  `some l` is the array holding the entries of `l` followed by NULL.
* `int` values are `Int`; sizes and uids are `Nat`.
* A system call's result that the program cannot determine is an input of the
  model (a field of an oracle structure).
-/

namespace Wshd

/-! ## C strings -/

/-- A C string: the characters before the terminating NUL. -/
abbrev CStr := List Char

/-- The libc `strchr(s, c)`: the offset of the first `c` in `s`, `none` for NULL. -/
def strchr : CStr → Char → Option Nat
  | [], _ => none
  | x :: xs, c => if x = c then some 0 else (strchr xs c).map (· + 1)

/-- The libc `memcmp(a, b, n) == 0` on two strings at least `n` long. -/
def memcmp_eq (a b : CStr) (n : Nat) : Bool :=
  a.take n == b.take n

/-! ## `env__add`, `env__get`, `child_setup_environment` (wshd.c 168-245) -/

/-- The function `env__add` (wshd.c:168): the vector grows by one slot, the new
last entry is the buffer `key=value` and the terminator moves one slot up.  A
NULL vector counts as holding only the terminator.  The result is never NULL
(`assert(envp != NULL)`). -/
def env__add (envp : Option (List CStr)) (key value : CStr) : Option (List CStr) :=
  let buf : CStr := key ++ '=' :: value
  match envp with
  | none => some [buf]
  | some l => some (l ++ [buf])

/-- The loop of `env__get` (wshd.c:200-211) from entry `i` on: the first entry
that has an `=` at offset `strlen(key)` and starts with `key` decides. -/
def env__get_loop (key : CStr) : List CStr → Option CStr
  | [] => none
  | e :: rest =>
    match strchr e '=' with
    | some keyLen =>
      if key.length = keyLen then
        if memcmp_eq key e keyLen then some (e.drop (keyLen + 1))
        else env__get_loop key rest
      else env__get_loop key rest
    | none => env__get_loop key rest

/-- The function `env__get` (wshd.c:197): `none` is the NULL result. -/
def env__get (envp : Option (List CStr)) (key : CStr) : Option CStr :=
  match envp with
  | none => none
  | some l => env__get_loop key l

/-- The fields of `struct passwd` the daemon reads. -/
structure Passwd where
  pw_name : CStr
  pw_uid : Nat
  pw_gid : Nat
  pw_dir : CStr
  pw_shell : CStr
  deriving DecidableEq, Repr

def sanitizedRootPath : CStr :=
  "/usr/local/sbin:/usr/local/bin:/usr/sbin:/usr/bin:/sbin:/bin".toList

def sanitizedUserPath : CStr := "/usr/local/bin:/usr/bin:/bin".toList

/-- The function `child_setup_environment` (wshd.c:217).  `chdir_rv` is the result
of `chdir(pw->pw_dir)`.  The result is NULL (`none`) when that fails, otherwise
the vector handed to `execvpe` together with the value given to
`setenv("PATH", _, 1)`. -/
def child_setup_environment (pw : Passwd) (extra_env_vars : Option (List CStr))
    (chdir_rv : Int) : Option (List CStr × CStr) :=
  let envp := extra_env_vars
  if chdir_rv = -1 then none
  else
    let envp := env__add envp "HOME".toList pw.pw_dir
    let envp := env__add envp "USER".toList pw.pw_name
    match env__get envp "PATH".toList with
    | some envp_path => some (envp.getD [], envp_path)
    | none =>
      if pw.pw_uid = 0 then
        let envp := env__add envp "PATH".toList sanitizedRootPath
        some (envp.getD [], sanitizedRootPath)
      else
        let envp := env__add envp "PATH".toList sanitizedUserPath
        some (envp.getD [], sanitizedUserPath)

/-! ## The kernel's view of a process: descriptor tables -/

/-- What an open descriptor refers to: one end of a pipe or of a pty pair, a
socket, or the signalfd.  The number names the kernel object; the two ends of
pipe `n` are `pipeR n` and `pipeW n`. -/
inductive Obj where
  | pipeR (id : Nat)
  | pipeW (id : Nat)
  | ptyMaster (id : Nat)
  | ptySlave (id : Nat)
  | sock (id : Nat)
  | sigfd
  deriving DecidableEq, Repr

/-- An open descriptor: the object it refers to and its `FD_CLOEXEC` flag. -/
structure Desc where
  obj : Obj
  cloexec : Bool
  deriving DecidableEq, Repr

/-- A process's descriptor table: slot `n` is descriptor `n`, `none` when closed. -/
abbrev FdTable := List (Option Desc)

/-- The descriptor in slot `n`. -/
def slot : FdTable → Nat → Option Desc
  | [], _ => none
  | d :: _, 0 => d
  | _ :: t, n + 1 => slot t n

/-- The descriptor a C `int` names: nothing for a negative number. -/
def fdGet (t : FdTable) : Int → Option Desc
  | Int.ofNat n => slot t n
  | Int.negSucc _ => none

/-- The table with slot `n` replaced. -/
def setSlot : FdTable → Nat → Option Desc → FdTable
  | [], 0, d => [d]
  | [], n + 1, d => none :: setSlot [] n d
  | _ :: t, 0, d => d :: t
  | x :: t, n + 1, d => x :: setSlot t n d

/-- The lowest-numbered descriptor that is not open: the one `pipe`, `dup`,
`accept` and `open` hand out. -/
def lowestFree : FdTable → Nat
  | [] => 0
  | none :: _ => 0
  | some _ :: t => lowestFree t + 1

/-- Open a new descriptor for `o` at the lowest free number, flag clear. -/
def fdAlloc (t : FdTable) (o : Obj) : Nat × FdTable :=
  (lowestFree t, setSlot t (lowestFree t) (some ⟨o, false⟩))

/-- The system call `close(fd)`: the slot becomes free. -/
def fdClose (t : FdTable) : Int → FdTable
  | Int.ofNat n => setSlot t n none
  | Int.negSucc _ => t

/-- The system call `dup2(old, new)`: `none` is the result -1 (`old` not open).
The copy has `FD_CLOEXEC` clear; when `old = new` nothing changes. -/
def sys_dup2 (t : FdTable) (old : Int) (new : Nat) : Option FdTable :=
  match fdGet t old with
  | none => none
  | some d => if old = (new : Int) then some t else some (setSlot t new (some ⟨d.obj, false⟩))

/-- The descriptors a successful `exec` leaves open: those without `FD_CLOEXEC`. -/
def afterExec (t : FdTable) : FdTable :=
  t.map fun d => match d with
    | some x => if x.cloexec then none else some x
    | none => none

/-- The libc `isatty(fd)`: the descriptor is open on a terminal. -/
def isatty (t : FdTable) (fd : Int) : Bool :=
  match fdGet t fd with
  | some ⟨Obj.ptyMaster _, _⟩ => true
  | some ⟨Obj.ptySlave _, _⟩ => true
  | _ => false

/-- Modelled from the spec: `fcntl_mix_cloexec` of util.c, which is not among
the sources.  "Every fd the daemon sends to a client has its close-on-exec flag
set before send": the call sets `FD_CLOEXEC` on an open descriptor. -/
def fcntl_mix_cloexec (t : FdTable) : Int → FdTable
  | Int.ofNat n =>
    match slot t n with
    | some d => setSlot t n (some ⟨d.obj, true⟩)
    | none => t
  | Int.negSucc _ => t

/-! ## The request and the forked child (wshd.c 247-345) -/

/-- The fields of `msg_request_t` (msg.h) the daemon reads.  An array field is
its strings, the `count` being their number; `dir.path` and `user.name` are
strings, empty when unset. -/
structure Request where
  tty : Bool
  arg : List CStr
  env : List CStr
  dir : CStr
  user : CStr
  deriving DecidableEq, Repr

/-- Modelled from the spec: `msg_array_export` of msg.c, which is not among the
sources.  "Importing an argv from a string array and exporting it yields the
original array element-wise": the export is the NULL-terminated vector of the
array's strings. -/
def msg_array_export (a : List CStr) : Option (List CStr) := some a

/-- What the forked child cannot determine itself: the results of the system
and library calls it makes between `fork` and `execvpe`. -/
structure ChildSys where
  setsid_rv : Int
  getpwnam : CStr → Option Passwd
  ioctl_rv : Int
  msg_rlimit_export_rv : Int
  msg_user_export_rv : Int
  chdir_home_rv : Int
  chdir_dir_rv : Int
  /-- Whether `execvpe` replaces the process image (it returns only on failure). -/
  exec_ok : Bool

/-- How the forked child ends: the program it becomes (with the descriptors
that survive the `exec` and the `PATH` searched), `exit(code)`, or `abort()`
from a failed assertion. -/
inductive ChildEnd where
  | exec (argv envp : List CStr) (path : CStr) (fds : FdTable)
  | exit (code : Int)
  | abort
  deriving DecidableEq, Repr

/-- The child branch of `child_fork` (wshd.c:256-342), run on the copy `t` of
the daemon's descriptor table that `fork` made. -/
def child_fork_child (sys : ChildSys) (req : Request) (t : FdTable) (fd_in fd_out fd_err : Int) :
    ChildEnd :=
  let default_argv : List CStr := ["/bin/sh".toList]
  match sys_dup2 t fd_in 0 with
  | none => .abort
  | some t =>
  match sys_dup2 t fd_out 1 with
  | none => .abort
  | some t =>
  match sys_dup2 t fd_err 2 with
  | none => .abort
  | some t =>
  if sys.setsid_rv = -1 then .abort else
  let user : CStr := if req.user.length = 0 then "root".toList else req.user
  match sys.getpwnam user with
  | none => .exit 255
  | some pw =>
  let default_argv := if pw.pw_shell.length ≠ 0 then [pw.pw_shell] else default_argv
  if isatty t fd_in ∧ sys.ioctl_rv = -1 then .abort else
  match (if req.arg.length ≠ 0 then msg_array_export req.arg else some default_argv) with
  | none => .abort
  | some argv =>
  if sys.msg_rlimit_export_rv = -1 then .exit 255 else
  if sys.msg_user_export_rv = -1 then .exit 255 else
  match (if req.env.length ≠ 0 then (msg_array_export req.env).map some else some none) with
  | none => .abort
  | some extra_env_vars =>
  match child_setup_environment pw extra_env_vars sys.chdir_home_rv with
  | none => .abort
  | some (envp, path) =>
  if req.dir.length ≠ 0 ∧ sys.chdir_dir_rv = -1 then .exit 255 else
  if sys.exec_ok then .exec argv envp path (afterExec t) else .exit 255

/-- What `fork` gives the parent in `child_fork` (wshd.c:247): on -1 the daemon
does `exit(1)`; otherwise the child's pid, the child running
`child_fork_child` on a copy of the table. -/
def child_fork (fork_rv : Int) (sys : ChildSys) (req : Request) (t : FdTable)
    (fd_in fd_out fd_err : Int) : Option (Int × ChildEnd) :=
  if fork_rv = -1 then none
  else some (fork_rv, child_fork_child sys req t fd_in fd_out fd_err)

/-! ## The daemon's state and the pid registry (wshd.c 31-46, 120-166) -/

/-- One element of the array `pid_to_fd`. -/
structure PidFd where
  pid : Int
  fd : Int
  deriving DecidableEq, Repr

/-- The calls of the daemon that act on a descriptor, as the outside sees them:
`un_send_fds` of a descriptor array (with what each descriptor refers to), a
`write` of one `int`, and `close`. -/
inductive Ev where
  | send (sock : Int) (fds : List Int) (objs : List (Option Obj))
  | write (fd : Int) (obj : Option Obj) (val : Int)
  | close (fd : Int)
  deriving DecidableEq, Repr

/-- The daemon process: the fields of `wshd_t` (`fd` the listening socket,
`pid_to_fd` the registry array, whose length is `pid_to_fd_len`), its
descriptor table, the next unused kernel object number, and the log of its
calls on descriptors. -/
structure Daemon where
  fd : Int
  pid_to_fd : List PidFd
  fds : FdTable
  next : Nat
  log : List Ev
  deriving DecidableEq, Repr

/-- The system call `write(fd, &val, sizeof(int))`; its result is ignored by every caller. -/
def sys_write (w : Daemon) (fd : Int) (val : Int) : Daemon :=
  { w with log := w.log ++ [.write fd ((fdGet w.fds fd).map (·.obj)) val] }

/-- The system call `close(fd)`. -/
def sys_close (w : Daemon) (fd : Int) : Daemon :=
  { w with fds := fdClose w.fds fd, log := w.log ++ [.close fd] }

/-- The function `child_pid_to_fd_add` (wshd.c:120): a `dup` of `fd` is stored
in a new last element.  `none` is `abort()`, taken when `dup` returns -1: `fd`
is not open, or (`emfile`) the process has no descriptor left. -/
def child_pid_to_fd_add (emfile : Bool) (w : Daemon) (pid fd : Int) : Option Daemon :=
  match fdGet w.fds fd with
  | none => none
  | some d =>
    if emfile then none
    else
      let (n, t) := fdAlloc w.fds d.obj
      some { w with fds := t, pid_to_fd := w.pid_to_fd ++ [⟨pid, (n : Int)⟩] }

/-- The index of the first element whose pid is `pid`: where the loop of
`child_pid_to_fd_remove` (wshd.c:143) breaks. -/
def pid_index (pid : Int) : List PidFd → Option Nat
  | [] => none
  | e :: rest => if e.pid = pid then some 0 else (pid_index pid rest).map (· + 1)

/-- The libc `memmove(&a[dst], &a[src], n * sizeof(a[0]))` inside one array. -/
def memmove {α : Type} (a : List α) (dst src n : Nat) : List α :=
  a.take dst ++ (a.drop src).take n ++ a.drop (dst + n)

/-- The function `child_pid_to_fd_remove` (wshd.c:138): the result is the stored
descriptor of the first element with that pid, -1 when there is none; the tail
moves down one slot and the array shrinks by one. -/
def child_pid_to_fd_remove (w : Daemon) (pid : Int) : Int × Daemon :=
  let len := w.pid_to_fd.length
  match pid_index pid w.pid_to_fd with
  | none => (-1, w)
  | some i =>
    let fd := (w.pid_to_fd.get? i).elim (-1) (·.fd)
    let a := if i + 1 < len then memmove w.pid_to_fd i (i + 1) (len - i - 1) else w.pid_to_fd
    (fd, { w with pid_to_fd := a.take (len - 1) })

/-! ## The reaper (wshd.c 518-552) -/

/-- The macro `WIFEXITED` of `<sys/wait.h>`: the termination signal field is 0. -/
def WIFEXITED (status : Nat) : Bool := status &&& 0x7f == 0

/-- The macro `WEXITSTATUS` of `<sys/wait.h>`. -/
def WEXITSTATUS (status : Nat) : Nat := (status &&& 0xff00) >>> 8

/-- The macro `WIFSIGNALED` of `<sys/wait.h>`:
`((signed char) ((status & 0x7f) + 1) >> 1) > 0`. -/
def WIFSIGNALED (status : Nat) : Bool :=
  let x := (status &&& 0x7f) + 1
  x < 128 && 0 < x / 2

/-- The function `child_handle_sigchld` (wshd.c:518).  The list holds what the
successive `waitpid(-1, &status, WNOHANG)` calls return (pid and status, calls
interrupted by `EINTR` being repeated), the call after the last returning no
child; `none` is `abort()` from the failed `assert(WIFSIGNALED(status))`. -/
def child_handle_sigchld : Daemon → List (Int × Nat) → Option Daemon
  | w, [] => some w
  | w, (pid, status) :: rest =>
    if pid ≤ 0 then some w
    else
      let (fd, w) := child_pid_to_fd_remove w pid
      if fd = -1 then child_handle_sigchld w rest
      else if WIFEXITED status then
        let exitstatus : Int := WEXITSTATUS status
        let w := sys_write w fd exitstatus
        child_handle_sigchld (sys_close w fd) rest
      else if WIFSIGNALED status then
        child_handle_sigchld (sys_close w fd) rest
      else none

/-! ## The session handlers (wshd.c 347-516) -/

/-- The results of the calls of a session handler that the daemon cannot
determine: `pipe(p[i])` for each `i`, `openpty`, `un_send_fds`, `fork` (as the
parent sees it), whether `dup` runs out of descriptors, and the calls of the
forked child. -/
structure HandlerSys where
  pipe_rv : Nat → Int
  openpty_rv : Int
  send_rv : Int
  fork_rv : Int
  dup_emfile : Bool
  child : ChildSys

/-- How the daemon process ends when a handler does not return. -/
inductive Fatal where
  | abort
  | exit (code : Int)
  deriving DecidableEq, Repr

/-- The child a handler forked: its pid and how it ends. -/
structure Session where
  pid : Int
  child : ChildEnd
  deriving DecidableEq, Repr

/-- The system call `pipe(p)`: a new pipe, its read end in `p[0]` and its write
end in `p[1]`, each at the lowest free descriptor. -/
def sys_pipe (w : Daemon) : (Int × Int) × Daemon :=
  let (r, t) := fdAlloc w.fds (.pipeR w.next)
  let (wr, t) := fdAlloc t (.pipeW w.next)
  (((r : Int), (wr : Int)), { w with fds := t, next := w.next + 1 })

/-- The libc `openpty(&master, &slave, NULL)`: a new pty pair, the master opened
first. -/
def sys_openpty (w : Daemon) : (Int × Int) × Daemon :=
  let (m, t) := fdAlloc w.fds (.ptyMaster w.next)
  let (sl, t) := fdAlloc t (.ptySlave w.next)
  (((m : Int), (sl : Int)), { w with fds := t, next := w.next + 1 })

/-- The loop `pipe(p[i]); fcntl_mix_cloexec(p[i][0]); fcntl_mix_cloexec(p[i][1])`
over the given indices (wshd.c:364-373, 436-445); `none` is `abort()` after a
failed `pipe`. -/
def open_pipes (sys : HandlerSys) : List Nat → Daemon → Option (List (Int × Int) × Daemon)
  | [], w => some ([], w)
  | i :: is, w =>
    if sys.pipe_rv i = -1 then none
    else
      let (pi, w) := sys_pipe w
      let w := { w with fds := fcntl_mix_cloexec (fcntl_mix_cloexec w.fds pi.1) pi.2 }
      match open_pipes sys is w with
      | none => none
      | some (ps, w) => some (pi :: ps, w)

/-- Modelled from the spec: `un_send_fds` of un.c, which is not among the
sources.  "Transmits the payload bytes and the fd list in one ancillary-data
message": unless the call fails (result -1) the peer receives what the listed
descriptors refer to. -/
def un_send_fds (rv : Int) (w : Daemon) (fd : Int) (fds : List Int) : Daemon :=
  if rv = -1 then w
  else { w with log := w.log ++ [.send fd fds (fds.map fun x => (fdGet w.fds x).map (·.obj))] }

/-- The loops at the label `err` (wshd.c:401-414, 466-479): every `p[i][j]`
above -1 is closed, then the connection if above -1. -/
def close_all (w : Daemon) (p : List (Int × Int)) (fd : Int) : Daemon :=
  let w := p.foldl (fun w pi =>
    let w := if pi.1 > -1 then sys_close w pi.1 else w
    if pi.2 > -1 then sys_close w pi.2 else w) w
  if fd > -1 then sys_close w fd else w

/-- The part of both handlers from `child_fork` to the return: fork the child on
`fd_in`, `fd_out`, `fd_err`, write its pid to `pid_w`, register a duplicate of
`exit_w`, close everything. -/
def fork_and_register (sys : HandlerSys) (fd : Int) (w : Daemon) (req : Request)
    (p : List (Int × Int)) (fd_in fd_out fd_err pid_w exit_w : Int) :
    Except Fatal (Daemon × Option Session) :=
  match child_fork sys.fork_rv sys.child req w.fds fd_in fd_out fd_err with
  | none => .error (.exit 1)
  | some (rv, child) =>
    if ¬ rv > 0 then .error .abort
    else
      let w := sys_write w pid_w rv
      match child_pid_to_fd_add sys.dup_emfile w rv exit_w with
      | none => .error .abort
      | some w => .ok (close_all w p fd, some ⟨rv, child⟩)

/-- The function `child_handle_interactive` (wshd.c:347). -/
def child_handle_interactive (sys : HandlerSys) (fd : Int) (w : Daemon) (req : Request) :
    Except Fatal (Daemon × Option Session) :=
  match open_pipes sys [1, 2] w with
  | none => .error .abort
  | some (ps, w) =>
    if sys.openpty_rv < 0 then .error .abort
    else
      let (p0, w) := sys_openpty w
      let w := { w with fds := fcntl_mix_cloexec (fcntl_mix_cloexec w.fds p0.1) p0.2 }
      let p := p0 :: ps
      let p_ := [(p.getD 0 (-1, -1)).1, (p.getD 1 (-1, -1)).1, (p.getD 2 (-1, -1)).1]
      let w := un_send_fds sys.send_rv w fd p_
      if sys.send_rv = -1 then .ok (close_all w p fd, none)
      else
        fork_and_register sys fd w req p (p.getD 0 (-1, -1)).2 (p.getD 0 (-1, -1)).2
          (p.getD 0 (-1, -1)).2 (p.getD 2 (-1, -1)).2 (p.getD 1 (-1, -1)).2

/-- The function `child_handle_noninteractive` (wshd.c:419). -/
def child_handle_noninteractive (sys : HandlerSys) (fd : Int) (w : Daemon) (req : Request) :
    Except Fatal (Daemon × Option Session) :=
  match open_pipes sys [0, 1, 2, 3, 4] w with
  | none => .error .abort
  | some (p, w) =>
    let p_ := [(p.getD 0 (-1, -1)).2, (p.getD 1 (-1, -1)).1, (p.getD 2 (-1, -1)).1,
      (p.getD 3 (-1, -1)).1, (p.getD 4 (-1, -1)).1]
    let w := un_send_fds sys.send_rv w fd p_
    if sys.send_rv = -1 then .ok (close_all w p fd, none)
    else
      fork_and_register sys fd w req p (p.getD 0 (-1, -1)).1 (p.getD 1 (-1, -1)).2
        (p.getD 2 (-1, -1)).2 (p.getD 4 (-1, -1)).2 (p.getD 3 (-1, -1)).2

/-- The function `child_accept` (wshd.c:484): `accept_rv` and `recv_rv` are the
results of `accept` and of `un_recv_fds`, `req` the request read and
`sizeof_req` its size. -/
def child_accept (sys : HandlerSys) (sizeof_req accept_rv recv_rv : Int) (w : Daemon)
    (req : Request) : Except Fatal (Daemon × Option Session) :=
  if accept_rv = -1 then .error .abort
  else
    let (fd, t) := fdAlloc w.fds (.sock w.next)
    let w := { w with fds := fcntl_mix_cloexec t fd, next := w.next + 1 }
    if recv_rv < 0 then .error (.exit 255)
    else if recv_rv = 0 then .ok (sys_close w fd, none)
    else if recv_rv ≠ sizeof_req then .error .abort
    else if req.tty then child_handle_interactive sys fd w req
    else child_handle_noninteractive sys fd w req

/-! ## The client's session loops (wsh.c 308-360) -/

/-- A pipe as its read end sees it: the bytes queued and the number of open
descriptors for its write end. -/
structure Pipe where
  buf : List Nat
  writers : Nat
  deriving DecidableEq, Repr

/-- The four bytes of an `int`, least significant first. -/
def int_bytes (v : Int) : List Nat :=
  let n := (v % 4294967296).toNat
  [n % 256, n / 256 % 256, n / 65536 % 256, n / 16777216 % 256]

/-- The `int` that four bytes hold. -/
def bytes_int (b : List Nat) : Int :=
  let n := b.getD 0 0 + 256 * b.getD 1 0 + 65536 * b.getD 2 0 + 16777216 * b.getD 3 0
  if n < 2147483648 then (n : Int) else (n : Int) - 4294967296

/-- What the daemon's logged calls on descriptor `fd` do to the pipe whose write
end `fd` is: a `write` queues the four bytes, a `close` drops one writer. -/
def pipe_after (fd : Int) : List Ev → Pipe → Pipe
  | [], p => p
  | .write f _ v :: r, p =>
    pipe_after fd r (if f = fd then { p with buf := p.buf ++ int_bytes v } else p)
  | .close f :: r, p =>
    pipe_after fd r (if f = fd then { p with writers := p.writers - 1 } else p)
  | .send _ _ _ :: r, p => pipe_after fd r p

/-- The system call `read(fd, &status, sizeof(status))` on the read end: the
number of bytes read and the `int` they give; 0 bytes at end of file (nothing
queued, no writer left); `none` when the call would block. -/
def read_status (p : Pipe) : Option (Int × Int) :=
  if p.buf.length ≠ 0 then some (((p.buf.take 4).length : Int), bytes_int (p.buf.take 4))
  else if p.writers = 0 then some (0, 0)
  else none

/-! ## The client's pump loop (wsh.c 162-244) -/

/-- The calls of `pump_loop`, in order. -/
inductive ClientEv where
  | read_pid (fd : Int)
  | open_pidfile
  | write_pidfile (pid : Int)
  | close (fd : Int)
  | pump_init
  | pump_add_pair (i : Nat)
  | pump_add_fd (fd : Int)
  | pump_select
  | pump_pair_copy (i : Nat)
  | read_exit_status (fd : Int)
  | unlink_pidfile
  deriving DecidableEq, Repr

/-- How the client process ends; `running` when the observations given to the
model are used up before the loop has ended. -/
inductive ClientEnd where
  | exit (code : Int)
  | abort
  | running
  deriving DecidableEq, Repr

/-- What one pass of the `for (;;)` body observes: how often `pump_select` was
interrupted (`EINTR`) before its last result `select_rv`, what `pump_ready`
says of the exit-status descriptor, and what `read` on it gives. -/
structure Pass where
  eintr : Nat
  select_rv : Int
  ready : Bool
  read_rv : Int
  status : Int
  deriving DecidableEq, Repr

/-- The results of the calls `pump_loop` makes outside the loop body. -/
structure ClientSys where
  pid_read_rv : Int
  pid : Int
  open_rv : Int
  close_rv : Int
  unlink_rv : Int
  deriving DecidableEq, Repr

/-- The function `cleanup_pidfile` (wsh.c:162): its calls, and `exit(255)` when
`unlink` fails. -/
def cleanup_pidfile (pidfile : Option CStr) (unlink_rv : Int) : List ClientEv × Option ClientEnd :=
  match pidfile with
  | some _ => ([.unlink_pidfile], if unlink_rv ≠ 0 then some (.exit 255) else none)
  | none => ([], none)

/-- One `for (i = 0; i < pplen; i++)` loop over the pairs. -/
def for_pairs (pplen : Nat) (f : Nat → ClientEv) : List ClientEv :=
  (List.range pplen).map f

/-- The `for (;;)` loop of `pump_loop` (wsh.c:197-243). -/
def pump_loop_passes (pid_file : Option CStr) (sys : ClientSys) (exit_status_fd : Int)
    (pplen : Nat) : List Pass → List ClientEv × ClientEnd
  | [] => ([], .running)
  | it :: rest =>
    let ev := [ClientEv.pump_init] ++ for_pairs pplen .pump_add_pair
      ++ (if exit_status_fd ≥ 0 then [.pump_add_fd exit_status_fd] else [])
      ++ List.replicate (it.eintr + 1) .pump_select
    if it.select_rv = -1 then
      match cleanup_pidfile pid_file sys.unlink_rv with
      | (c, some e) => (ev ++ c, e)
      | (c, none) => (ev ++ c, .abort)
    else
      let ev := ev ++ for_pairs pplen .pump_pair_copy
      if it.ready then
        let ev := ev ++ [.read_exit_status exit_status_fd]
        if it.read_rv < 0 then (ev, .abort)
        else
          let ev := ev ++ for_pairs pplen .pump_pair_copy
          if it.read_rv = 0 then
            match cleanup_pidfile pid_file sys.unlink_rv with
            | (c, some e) => (ev ++ c, e)
            | (c, none) => (ev ++ c, .exit 255)
          else if it.read_rv ≠ 4 then (ev, .abort)
          else
            match cleanup_pidfile pid_file sys.unlink_rv with
            | (c, some e) => (ev ++ c, e)
            | (c, none) => (ev ++ c, .exit it.status)
      else
        let (ev', e) := pump_loop_passes pid_file sys exit_status_fd pplen rest
        (ev ++ ev', e)

/-- The function `pump_loop` (wsh.c:174); `pplen` is the number of pairs, which
both callers give as a positive constant. -/
def pump_loop (pid_file : Option CStr) (sys : ClientSys) (pid_fd exit_status_fd : Int)
    (pplen : Nat) (passes : List Pass) : List ClientEv × ClientEnd :=
  let ev := [ClientEv.read_pid pid_fd]
  if sys.pid_read_rv < 0 then (ev, .abort)
  else
    match pid_file with
    | some _ =>
      if sys.open_rv = -1 then (ev ++ [.open_pidfile], .exit 1)
      else
        let ev := ev ++ [.open_pidfile, .write_pidfile sys.pid, .close pid_fd]
        let (ev', e) := pump_loop_passes pid_file sys exit_status_fd pplen passes
        (ev ++ ev', e)
    | none =>
      let (ev', e) := pump_loop_passes pid_file sys exit_status_fd pplen passes
      (ev ++ ev', e)

/-- The status a parent's `wait` sees after `exit(code)`: the low eight bits. -/
def exit_status (code : Int) : Int := code % 256

/-! ## The client's options (wsh.c 18-158, 362-379) -/

/-- The structure `wsh_t` (wsh.c:20): `argv` is NULL (`none`) or the vector of
the `argc` words; `environment_variable_count` is the length of
`environment_variables`; an unset string field is NULL (`none`). -/
structure wsh_t where
  argc : Int
  argv : Option (List CStr)
  environment_variables : List CStr
  socket_path : Option CStr
  user : Option CStr
  dir : Option CStr
  pid_file : Option CStr
  deriving DecidableEq, Repr

/-- How `wsh__getopt` ends: `return 0` with the structure as it leaves it,
`return -1` after `wsh__usage`, `return -1` after the message for an invalid
option, or `abort()` from the failed `assert(i < w->argc)`. -/
inductive GetoptEnd where
  | ok (w : wsh_t)
  | usage
  | invalid (arg : CStr)
  | abort
  deriving DecidableEq, Repr

/-- The value `wsh__getopt` returns, when it returns. -/
def GetoptEnd.rv : GetoptEnd → Option Int
  | .ok _ => some 0
  | .usage => some (-1)
  | .invalid _ => some (-1)
  | .abort => none

/-- The end of `wsh__getopt` (wsh.c:145-152) with the words from `argv[i]` on
left over: `argc` becomes their number and `argv` points at them, or is NULL
when there is none. -/
def getopt_finish (w : wsh_t) (rest : List CStr) : GetoptEnd :=
  let argc : Int := rest.length
  .ok { w with argc := argc, argv := if argc ≠ 0 then some rest else none }

mutual

/-- The outer `while (i < w->argc)` loop of `wsh__getopt` (wsh.c:79-143) on the
words from `argv[i]` on; `j`, the number of words left, is their length. -/
def getopt_loop (w : wsh_t) : List CStr → GetoptEnd
  | [] => getopt_finish w []
  | [a] =>
    if a.head? ≠ some '-' then getopt_finish w [a]
    else if a = "-h".toList ∨ a = "--help".toList then .usage
    else if a = "--rsh".toList then rsh_loop w []
    else .invalid a
  | a :: b :: rest =>
    if a.head? ≠ some '-' then getopt_finish w (a :: b :: rest)
    else if a = "-h".toList ∨ a = "--help".toList then .usage
    else if a = "--socket".toList then getopt_loop { w with socket_path := some b } rest
    else if a = "--user".toList then getopt_loop { w with user := some b } rest
    else if a = "--dir".toList then getopt_loop { w with dir := some b } rest
    else if a = "--pidfile".toList then getopt_loop { w with pid_file := some b } rest
    else if a = "--env".toList then
      getopt_loop { w with environment_variables := w.environment_variables ++ [b] } rest
    else if a = "--rsh".toList then rsh_loop w (b :: rest)
    else .invalid a

/-- The inner loop of the `--rsh` branch (wsh.c:114-139) on the words from
`argv[i]` on, with the skip over the host and the return to the outer loop. -/
def rsh_loop (w : wsh_t) : List CStr → GetoptEnd
  | [] => .abort
  | [a] =>
    if a.head? ≠ some '-' then getopt_loop w []
    else if a.length = 2 ∧ a.getD 1 ' ' ∈ "46dn".toList then rsh_loop w []
    else .invalid a
  | a :: b :: rest =>
    if a.head? ≠ some '-' then getopt_loop w (b :: rest)
    else if a.length = 2 ∧ a.getD 1 ' ' ∈ "46dn".toList then rsh_loop w (b :: rest)
    else if a.length = 2 ∧ a.getD 1 ' ' = 'l' then rsh_loop { w with user := some b } rest
    else if a.length = 2 ∧ a.getD 1 ' ' = 't' then rsh_loop w rest
    else .invalid a

end

/-- The function `wsh__getopt` (wsh.c:73): `pid_file` is reset, the scan starts
at `argv[1]`.  A vector without `argv[0]` leaves the loop at once with
`argc - 1`. -/
def wsh__getopt (w : wsh_t) : GetoptEnd :=
  let w := { w with pid_file := none }
  match w.argv with
  | some (_ :: args) => getopt_loop w args
  | _ => .ok { w with argc := w.argc - 1, argv := if w.argc - 1 ≠ 0 then some [] else none }

/-- The structure `main` hands to `wsh__getopt` (wsh.c:370-374): zeroed by
`calloc`, then `argc` and `argv` set. -/
def wsh_init (argv : List CStr) : wsh_t :=
  { argc := argv.length, argv := some argv, environment_variables := [],
    socket_path := none, user := none, dir := none, pid_file := none }

/-- The start of the client's `main` (wsh.c:362-379): `wsh__getopt` on the
initial structure; `exit(1)` when it returns -1, otherwise the structure `main`
goes on with. -/
def wsh_main_getopt (argv : List CStr) : ClientEnd ⊕ wsh_t :=
  match wsh__getopt (wsh_init argv) with
  | .ok w => .inr w
  | .usage => .inl (.exit 1)
  | .invalid _ => .inl (.exit 1)
  | .abort => .inl .abort

/-! ## Reference readings of an environment vector -/

/-- The key of an entry: the text before its first `=`; an entry without `=`
has none. -/
def entryKey (e : CStr) : Option CStr :=
  if '=' ∈ e then some (e.takeWhile (· ≠ '=')) else none

/-- The value of an entry: the text after its first `=`. -/
def entryValue (e : CStr) : CStr :=
  (e.dropWhile (· ≠ '=')).drop 1

/-- The value of the first entry whose key is `k`. -/
def firstValue (env : List CStr) (k : CStr) : Option CStr :=
  (env.find? fun e => entryKey e == some k).map entryValue

/-- The value of the last entry whose key is `k`. -/
def lastValue (env : List CStr) (k : CStr) : Option CStr :=
  (env.reverse.find? fun e => entryKey e == some k).map entryValue

/-- The number of entries whose key is `k`. -/
def keyCount (env : List CStr) (k : CStr) : Nat :=
  env.countP fun e => entryKey e == some k

/-- The three `dup2` calls that open `child_fork`'s child branch. -/
def stdio_dup2 (t : FdTable) (fd_in fd_out fd_err : Int) : Option FdTable :=
  (sys_dup2 t fd_in 0).bind fun t => (sys_dup2 t fd_out 1).bind fun t => sys_dup2 t fd_err 2

/-- The account name `child_fork` looks up: the request's, `root` when empty. -/
def lookupUser (req : Request) : CStr :=
  if req.user.length = 0 then "root".toList else req.user

/-- The argv of step 5 of the child's sequence: the request's argv if non-empty,
else the account's login shell, else `/bin/sh`. -/
def pickedArgv (req : Request) (pw : Passwd) : List CStr :=
  if req.arg.length ≠ 0 then req.arg
  else if pw.pw_shell.length ≠ 0 then [pw.pw_shell]
  else ["/bin/sh".toList]

/-- The calls of one pass of the pump loop up to and including the copy over
all pairs that follows `pump_select`. -/
def pass_events (exit_status_fd : Int) (pplen : Nat) (q : Pass) : List ClientEv :=
  [ClientEv.pump_init] ++ for_pairs pplen .pump_add_pair
    ++ (if exit_status_fd ≥ 0 then [.pump_add_fd exit_status_fd] else [])
    ++ List.replicate (q.eintr + 1) .pump_select
    ++ for_pairs pplen .pump_pair_copy

/-- The calls of `pump_loop` before its `for (;;)` loop, when none of them ends
the process. -/
def prologue_events (pid_file : Option CStr) (sys : ClientSys) (pid_fd : Int) : List ClientEv :=
  match pid_file with
  | some _ => [.read_pid pid_fd, .open_pidfile, .write_pidfile sys.pid, .close pid_fd]
  | none => [.read_pid pid_fd]

/-! ## The grammar of the client's command line -/

/-- One flag of the `--rsh` grammar `[-46dn] [-l user] [-t timeout]`. -/
inductive RshFlag where
  | plain (c : Char)
  | login (user : CStr)
  | timeout (t : CStr)
  deriving DecidableEq, Repr

/-- The words of a flag on the command line. -/
def RshFlag.words : RshFlag → List CStr
  | .plain c => [['-', c]]
  | .login u => ["-l".toList, u]
  | .timeout t => ["-t".toList, t]

/-- A plain flag is one of `-4`, `-6`, `-d`, `-n`. -/
def RshFlag.valid : RshFlag → Prop
  | .plain c => c ∈ "46dn".toList
  | _ => True

/-- The USER of a `-l` flag. -/
def RshFlag.login? : RshFlag → Option CStr
  | .login u => some u
  | _ => none

/-- The USER of the last `-l` among the flags, if there is one. -/
def lastLogin (flags : List RshFlag) : Option CStr :=
  (flags.filterMap RshFlag.login?).getLast?

/-- One valid option of the client other than help: an option with its value,
or `--rsh` with its flags and its host word. -/
inductive ClientOpt where
  | socket (v : CStr)
  | user (v : CStr)
  | dir (v : CStr)
  | pidfile (v : CStr)
  | env (v : CStr)
  | rsh (flags : List RshFlag) (host : CStr)
  deriving DecidableEq, Repr

/-- The words of an option on the command line. -/
def ClientOpt.words : ClientOpt → List CStr
  | .socket v => ["--socket".toList, v]
  | .user v => ["--user".toList, v]
  | .dir v => ["--dir".toList, v]
  | .pidfile v => ["--pidfile".toList, v]
  | .env v => ["--env".toList, v]
  | .rsh flags host => "--rsh".toList :: (flags.map RshFlag.words).flatten ++ [host]

/-- The flags of `--rsh` are valid and its host is a word, not a flag: it does
not start with `-`.  An option's value is any word. -/
def ClientOpt.valid : ClientOpt → Prop
  | .rsh flags host => (∀ f ∈ flags, f.valid) ∧ host.head? ≠ some '-'
  | _ => True

/-! ## Example inputs -/

/-- The daemon once `child_loop` has closed descriptors 0, 1, 2 and opened the
signalfd (close-on-exec, on descriptor 0), the listening socket being
descriptor 3 and object 0. -/
def bootDaemon : Daemon :=
  { fd := 3
    pid_to_fd := []
    fds := [some ⟨.sigfd, true⟩, none, none, some ⟨.sock 0, false⟩]
    next := 1
    log := [] }

/-- The daemon's table when a non-interactive child is forked in the first
session: signalfd, connection, listening socket, and five close-on-exec pipes. -/
def exampleTable : FdTable :=
  [some ⟨.sigfd, true⟩, some ⟨.sock 1, true⟩, some ⟨.pipeR 0, true⟩, some ⟨.sock 0, false⟩,
   some ⟨.pipeW 0, true⟩, some ⟨.pipeR 1, true⟩, some ⟨.pipeW 1, true⟩,
   some ⟨.pipeR 2, true⟩, some ⟨.pipeW 2, true⟩]

/-- A table in which descriptor 3 is a pty slave. -/
def examplePtyTable : FdTable :=
  [some ⟨.sigfd, true⟩, some ⟨.sock 1, true⟩, none, some ⟨.ptySlave 0, true⟩]

/-- The account `root` with home `/root` and no login shell. -/
def exampleRoot : Passwd := ⟨"root".toList, 0, 0, "/root".toList, []⟩

/-- The account `nobody`, whose home directory `/nonexistent` does not exist. -/
def exampleNobody : Passwd :=
  ⟨"nobody".toList, 65534, 65534, "/nonexistent".toList, "/usr/sbin/nologin".toList⟩

/-- Every call succeeds and every account name resolves to `exampleRoot`. -/
def exampleSys : ChildSys :=
  { setsid_rv := 7, getpwnam := fun _ => some exampleRoot, ioctl_rv := 0,
    msg_rlimit_export_rv := 0, msg_user_export_rv := 0, chdir_home_rv := 0,
    chdir_dir_rv := 0, exec_ok := true }

/-- Every call of a handler succeeds; `fork` gives the parent `pid`. -/
def scenarioSys (pid : Int) : HandlerSys :=
  { pipe_rv := fun _ => 0, openpty_rv := 0, send_rv := 1, fork_rv := pid, dup_emfile := false,
    child := exampleSys }

/-- The request `/bin/echo` without a terminal. -/
def echoRequest : Request := ⟨false, ["/bin/echo".toList], [], [], []⟩

/-- A daemon with two sessions registered: pids 7 and 9, descriptors 4 and 5. -/
def exampleDaemon : Daemon :=
  { fd := 3
    pid_to_fd := [⟨7, 4⟩, ⟨9, 5⟩]
    fds := [some ⟨.sigfd, true⟩, none, none, some ⟨.sock 0, false⟩, some ⟨.pipeW 3, false⟩,
      some ⟨.pipeW 8, false⟩]
    next := 10
    log := [] }

/-- The daemon a handler returned, if it returned. -/
def sessionDaemon : Except Fatal (Daemon × Option Session) → Option Daemon
  | .ok (w, _) => some w
  | .error _ => none

/-- The descriptor table of the program the forked child became, if it did. -/
def sessionChildFds : Except Fatal (Daemon × Option Session) → Option FdTable
  | .ok (_, some ⟨_, .exec _ _ _ fds⟩) => some fds
  | _ => none

/-- The first session of a daemon: a non-interactive request is accepted, its
child gets pid 12. -/
def firstSession : Except Fatal (Daemon × Option Session) :=
  child_accept (scenarioSys 12) 64 1 64 bootDaemon echoRequest

/-- The second session, accepted before the first session's child is reaped;
its child gets pid 13. -/
def secondSession : Except Fatal (Daemon × Option Session) :=
  match firstSession with
  | .ok (w, _) => child_accept (scenarioSys 13) 64 1 64 w echoRequest
  | .error e => .error e

/-- The descriptors of a table that refer to `o`. -/
def holders (t : FdTable) (o : Obj) : List Nat :=
  (List.range t.length).filter fun n => (slot t n).map (·.obj) == some o

/-! # Theorems -/

/-! ## Strings and environment vectors -/

theorem strchr_eq_some {e : CStr} {c : Char} {i : Nat} (h : strchr e c = some i) :
    c ∈ e ∧ e.take i = e.takeWhile (· ≠ c) ∧ i = (e.takeWhile (· ≠ c)).length ∧
      e.drop (i + 1) = (e.dropWhile (· ≠ c)).drop 1 := by
  induction e generalizing i with
  | nil => simp [strchr] at h
  | cons x xs ih =>
    by_cases hx : x = c
    · subst hx
      simp [strchr] at h
      subst h
      simp
    · simp only [strchr, hx, if_false] at h
      cases hj : strchr xs c with
      | none => simp [hj] at h
      | some j =>
        simp [hj] at h
        subst h
        obtain ⟨h1, h2, h3, h4⟩ := ih hj
        refine ⟨List.mem_cons_of_mem _ h1, ?_, ?_, ?_⟩
        · simp [List.takeWhile, hx, h2]
        · simpa [List.takeWhile, hx] using h3
        · simp [List.dropWhile, hx, h4]

theorem strchr_eq_none {e : CStr} {c : Char} (h : strchr e c = none) : c ∉ e := by
  induction e with
  | nil => simp
  | cons x xs ih =>
    by_cases hx : x = c
    · simp [strchr, hx] at h
    · simp only [strchr, hx, if_false, Option.map_eq_none'] at h
      simp [ih h, Ne.symm hx]

/-- The loop of `env__get` finds the first entry whose key is `key`. -/
theorem env__get_loop_eq_firstValue (key : CStr) (l : List CStr) :
    env__get_loop key l = firstValue l key := by
  induction l with
  | nil => rfl
  | cons e rest ih =>
    unfold env__get_loop
    cases hs : strchr e '=' with
    | none =>
      have hne := strchr_eq_none hs
      simp only [firstValue] at ih ⊢
      simp [entryKey, hne, ih, List.find?]
    | some i =>
      obtain ⟨hmem, htk, hi, hdrop⟩ := strchr_eq_some hs
      simp only [firstValue] at ih ⊢
      by_cases hk : key = e.takeWhile (· ≠ '=')
      · have hlen : key.length = i := by rw [hi, hk]
        have htake : key.take i = e.take i := by
          rw [htk, ← hk, ← hlen, List.take_length]
        simp only [hlen, if_true, memcmp_eq, htake, beq_self_eq_true]
        simp only [List.find?, entryKey, hmem, if_true, hk, beq_self_eq_true, Option.map_some']
        rw [hdrop]
        rfl
      · have hfalse : (entryKey e == some key) = false := by
          simp only [entryKey, hmem, if_true, beq_eq_false_iff_ne, ne_eq, Option.some.injEq]
          exact fun h => hk h.symm
        simp only [List.find?, hfalse]
        by_cases hlen : key.length = i
        · have hne : key.take i ≠ e.take i := by
            intro h
            apply hk
            rw [← hlen, List.take_length] at h
            rw [h, hlen, htk]
          simp [hlen, memcmp_eq, hne, ih]
        · simp [hlen, ih]

theorem env__get_eq_firstValue (envp : Option (List CStr)) (key : CStr) :
    env__get envp key = firstValue (envp.getD []) key := by
  cases envp with
  | none => rfl
  | some l => exact env__get_loop_eq_firstValue key l

theorem env__add_eq (envp : Option (List CStr)) (key value : CStr) :
    env__add envp key value = some (envp.getD [] ++ [key ++ '=' :: value]) := by
  cases envp <;> rfl

theorem takeWhile_ne_append {k : CStr} {c : Char} (hk : c ∉ k) (v : CStr) :
    (k ++ c :: v).takeWhile (· ≠ c) = k ∧ (k ++ c :: v).dropWhile (· ≠ c) = c :: v := by
  induction k with
  | nil => simp
  | cons x xs ih =>
    have hx : x ≠ c := fun h => hk (by simp [h])
    have hxs : c ∉ xs := fun h => hk (List.mem_cons_of_mem _ h)
    simpa [List.takeWhile, List.dropWhile, hx] using ih hxs

theorem entryKey_mk {k : CStr} (hk : '=' ∉ k) (v : CStr) :
    entryKey (k ++ '=' :: v) = some k ∧ entryValue (k ++ '=' :: v) = v := by
  obtain ⟨h1, h2⟩ := takeWhile_ne_append hk v
  constructor
  · simp only [entryKey, h1]
    simp
  · simp only [entryValue, h2]
    simp

theorem firstValue_append (l : List CStr) (e k : CStr) :
    firstValue (l ++ [e]) k =
      match firstValue l k with
      | some v => some v
      | none => if entryKey e == some k then some (entryValue e) else none := by
  simp only [firstValue, List.find?_append]
  cases h : List.find? (fun e => entryKey e == some k) l with
  | some x => simp
  | none =>
    by_cases he : (entryKey e == some k) = true
    · simp [List.find?, he]
    · simp [List.find?, he]

theorem firstValue_append_other (l : List CStr) (e k : CStr) (h : entryKey e ≠ some k) :
    firstValue (l ++ [e]) k = firstValue l k := by
  rw [firstValue_append]
  cases firstValue l k <;> simp [h]

/-! ## C5: the environment `child_setup_environment` composes -/

theorem child_setup_environment_eq (pw : Passwd) (extra : Option (List CStr)) (chdir_rv : Int)
    (hchdir : chdir_rv ≠ -1) :
    child_setup_environment pw extra chdir_rv =
      some (extra.getD [] ++ ["HOME".toList ++ '=' :: pw.pw_dir, "USER".toList ++ '=' :: pw.pw_name]
              ++ (match firstValue (extra.getD []) "PATH".toList with
                  | some _ => []
                  | none => ["PATH".toList ++ '=' ::
                      (if pw.pw_uid = 0 then
                        "/usr/local/sbin:/usr/local/bin:/usr/sbin:/usr/bin:/sbin:/bin".toList
                       else "/usr/local/bin:/usr/bin:/bin".toList)]),
            (firstValue (extra.getD []) "PATH".toList).getD
              (if pw.pw_uid = 0 then "/usr/local/sbin:/usr/local/bin:/usr/sbin:/usr/bin:/sbin:/bin".toList
               else "/usr/local/bin:/usr/bin:/bin".toList)) := by
  have hHOME : entryKey ("HOME".toList ++ '=' :: pw.pw_dir) ≠ some "PATH".toList := by
    rw [(entryKey_mk (by decide) _).1]; decide
  have hUSER : entryKey ("USER".toList ++ '=' :: pw.pw_name) ≠ some "PATH".toList := by
    rw [(entryKey_mk (by decide) _).1]; decide
  have hget : env__get (some ((extra.getD [] ++ ["HOME".toList ++ '=' :: pw.pw_dir]) ++
      ["USER".toList ++ '=' :: pw.pw_name])) "PATH".toList = firstValue (extra.getD []) "PATH".toList := by
    rw [env__get_eq_firstValue]
    simp only [Option.getD_some]
    rw [firstValue_append_other _ _ _ hUSER, firstValue_append_other _ _ _ hHOME]
  unfold child_setup_environment
  simp only [hchdir, if_false, env__add_eq, Option.getD_some, hget]
  cases hp : firstValue (extra.getD []) "PATH".toList with
  | some v => simp
  | none =>
    by_cases hu : pw.pw_uid = 0
    · simp [hu, sanitizedRootPath]
    · simp [hu, sanitizedUserPath]

/-- C5.  When `chdir` to the home directory succeeds, `child_setup_environment`
returns the request's extra entries first and in their order, then
`HOME=<pw_dir>` and `USER=<pw_name>`, then a `PATH` entry only when the request
supplied none; the `PATH` it sets is the request's (its first `PATH` entry) when
there is one, otherwise the root default for uid 0 and the user default for any
other uid. -/
theorem child_setup_environment_spec (pw : Passwd) (extra : Option (List CStr)) (chdir_rv : Int)
    (hchdir : chdir_rv ≠ -1) :
    child_setup_environment pw extra chdir_rv =
      some (extra.getD [] ++ ["HOME".toList ++ '=' :: pw.pw_dir, "USER".toList ++ '=' :: pw.pw_name]
              ++ (match firstValue (extra.getD []) "PATH".toList with
                  | some _ => []
                  | none => ["PATH".toList ++ '=' ::
                      (if pw.pw_uid = 0 then
                        "/usr/local/sbin:/usr/local/bin:/usr/sbin:/usr/bin:/sbin:/bin".toList
                       else "/usr/local/bin:/usr/bin:/bin".toList)]),
            (firstValue (extra.getD []) "PATH".toList).getD
              (if pw.pw_uid = 0 then "/usr/local/sbin:/usr/local/bin:/usr/sbin:/usr/bin:/sbin:/bin".toList
               else "/usr/local/bin:/usr/bin:/bin".toList)) :=
  child_setup_environment_eq pw extra chdir_rv hchdir

/-- C5, at an instance: uid 1000 and the request `PATH=/opt/bin`, `X=1`. -/
theorem child_setup_environment_spec_witness :
    ((0 : Int) ≠ -1) ∧
    child_setup_environment ⟨"alice".toList, 1000, 1000, "/home/alice".toList, "/bin/bash".toList⟩
        (some ["PATH=/opt/bin".toList, "X=1".toList]) 0 =
      some (["PATH=/opt/bin".toList, "X=1".toList, "HOME=/home/alice".toList, "USER=alice".toList],
            "/opt/bin".toList) :=
  ⟨by decide, by
    rw [child_setup_environment_spec _ _ _ (by decide)]
    decide⟩

/-! ## C6: `env__get` after `env__add` -/

/-- C6 as stated fails: with `A=1` already present, adding `A=2` and reading `A`
gives `1`. -/
theorem env__get_env__add_counterexample :
    env__get (env__add (some ["A=1".toList]) "A".toList "2".toList) "A".toList = some "1".toList ∧
    env__get (env__add (some ["A=1".toList]) "A".toList "2".toList) "A".toList ≠ some "2".toList := by
  decide

/-- C6, amended.  For a key without `=`: reading `k` after `env__add(env, k, v)`
gives `v` when `env` (NULL or not) had no entry of key `k`, and otherwise gives
what `env__get(env, k)` gave before, the earlier entry still deciding. -/
theorem env__get_env__add (envp : Option (List CStr)) (k v : CStr) (hk : '=' ∉ k) :
    env__get (env__add envp k v) k = some ((env__get envp k).getD v) := by
  obtain ⟨h1, h2⟩ := entryKey_mk hk v
  rw [env__add_eq, env__get_eq_firstValue, env__get_eq_firstValue, Option.getD_some,
    firstValue_append]
  cases firstValue (envp.getD []) k with
  | some x => simp
  | none => simp [h1, h2]

/-- C6 amended, at an instance: on the NULL vector the round trip holds. -/
theorem env__get_env__add_witness :
    '=' ∉ "PATH".toList ∧
    env__get (env__add none "PATH".toList "/bin".toList) "PATH".toList = some "/bin".toList :=
  ⟨by decide, env__get_env__add none "PATH".toList "/bin".toList (by decide)⟩

/-! ## C7: which entry `env__get` returns -/

/-- C7 as stated fails: the key `A` occurs twice, the last entry has value `2`,
and `env__get` returns `1`. -/
theorem env__get_last_counterexample :
    1 < keyCount ["A=1".toList, "A=2".toList] "A".toList ∧
    lastValue ["A=1".toList, "A=2".toList] "A".toList = some "2".toList ∧
    env__get (some ["A=1".toList, "A=2".toList]) "A".toList = some "1".toList ∧
    env__get (some ["A=1".toList, "A=2".toList]) "A".toList ≠
      lastValue ["A=1".toList, "A=2".toList] "A".toList := by
  decide

/-- C7, amended.  For every environment (the NULL one read as empty) and key,
also when the key occurs in more than one entry, `env__get(env, k)` returns the
value of the first entry whose key is `k`, and NULL when there is none. -/
theorem env__get_first (envp : Option (List CStr)) (k : CStr) :
    env__get envp k = firstValue (envp.getD []) k ∧
    (∀ env, envp = some env → env__get envp k = firstValue env k) :=
  ⟨env__get_eq_firstValue envp k, fun env h => by
    subst h
    exact env__get_loop_eq_firstValue k env⟩

/-! ## C8, C9: the forked child -/

theorem child_fork_child_unfold (sys : ChildSys) (req : Request) (t : FdTable)
    (fd_in fd_out fd_err : Int) :
    child_fork_child sys req t fd_in fd_out fd_err =
      match stdio_dup2 t fd_in fd_out fd_err with
      | none => .abort
      | some t =>
        if sys.setsid_rv = -1 then .abort else
        match sys.getpwnam (lookupUser req) with
        | none => .exit 255
        | some pw =>
          if isatty t fd_in ∧ sys.ioctl_rv = -1 then .abort else
          if sys.msg_rlimit_export_rv = -1 then .exit 255 else
          if sys.msg_user_export_rv = -1 then .exit 255 else
          match child_setup_environment pw (if req.env.length ≠ 0 then some req.env else none)
              sys.chdir_home_rv with
          | none => .abort
          | some (envp, path) =>
            if req.dir.length ≠ 0 ∧ sys.chdir_dir_rv = -1 then .exit 255 else
            if sys.exec_ok then .exec (pickedArgv req pw) envp path (afterExec t) else .exit 255 := by
  unfold child_fork_child stdio_dup2 lookupUser pickedArgv msg_array_export
  cases h1 : sys_dup2 t fd_in 0 with
  | none => rfl
  | some t1 =>
    simp only [Option.some_bind]
    cases h2 : sys_dup2 t1 fd_out 1 with
    | none => rfl
    | some t2 =>
      simp only [Option.some_bind]
      cases h3 : sys_dup2 t2 fd_err 2 with
      | none => rfl
      | some t3 =>
        simp only []
        by_cases hs : sys.setsid_rv = -1
        · simp only [hs, if_true]
        · simp only [hs, if_false]
          cases hpw : sys.getpwnam (if req.user.length = 0 then "root".toList else req.user) with
          | none => rfl
          | some pw =>
            simp only []
            by_cases htty : isatty t3 fd_in = true ∧ sys.ioctl_rv = -1
            · simp only [htty, and_self, if_true]
            · simp only [htty, if_false]
              by_cases harg : req.arg.length ≠ 0
              · by_cases henv : req.env.length ≠ 0
                · simp only [if_pos harg, if_pos henv, Option.map_some']
                · simp only [if_pos harg, if_neg henv]
              · by_cases henv : req.env.length ≠ 0
                · simp only [if_neg harg, if_pos henv, Option.map_some']
                · simp only [if_neg harg, if_neg henv]

/-- C8.  The argv the child execs is the request's argv when the request's
argument count is non-zero, otherwise the one-element vector of the account's
login shell when that string is non-empty, otherwise `/bin/sh`: whenever the
child reaches a successful `execvpe` its argv is that one, and it does reach it
when every step before it succeeds. -/
theorem child_fork_argv (sys : ChildSys) (req : Request) (t : FdTable) (fd_in fd_out fd_err : Int) :
    (∀ argv envp path fds,
        child_fork_child sys req t fd_in fd_out fd_err = .exec argv envp path fds →
        ∃ pw, sys.getpwnam (lookupUser req) = some pw ∧
          argv = if req.arg.length ≠ 0 then req.arg
                 else if pw.pw_shell.length ≠ 0 then [pw.pw_shell]
                 else ["/bin/sh".toList]) ∧
    (∀ t' pw, stdio_dup2 t fd_in fd_out fd_err = some t' → sys.setsid_rv ≠ -1 →
        sys.getpwnam (lookupUser req) = some pw →
        ¬ (isatty t' fd_in = true ∧ sys.ioctl_rv = -1) →
        sys.msg_rlimit_export_rv ≠ -1 → sys.msg_user_export_rv ≠ -1 →
        sys.chdir_home_rv ≠ -1 → ¬ (req.dir.length ≠ 0 ∧ sys.chdir_dir_rv = -1) →
        sys.exec_ok = true →
        ∃ envp path,
          child_fork_child sys req t fd_in fd_out fd_err =
            .exec (if req.arg.length ≠ 0 then req.arg
                   else if pw.pw_shell.length ≠ 0 then [pw.pw_shell]
                   else ["/bin/sh".toList]) envp path (afterExec t')) := by
  rw [child_fork_child_unfold]
  constructor
  · intro argv envp path fds h
    cases hd : stdio_dup2 t fd_in fd_out fd_err with
    | none => simp [hd] at h
    | some t' =>
      simp only [hd] at h
      cases hpw : sys.getpwnam (lookupUser req) with
      | none => rw [hpw] at h; split_ifs at h
      | some pw =>
        refine ⟨pw, rfl, ?_⟩
        rw [hpw] at h
        simp only [] at h
        split_ifs at h
        all_goals
          split at h
          · cases h
          · first
            | (simp only [ChildEnd.exec.injEq] at h
               exact h.1.symm)
            | cases h
  · intro t' pw hd hs hpw htty hrl hus hch hdir hex
    have henv := child_setup_environment_eq pw (if req.env.length ≠ 0 then some req.env else none)
      sys.chdir_home_rv hch
    simp only [hd, hs, hpw, htty, hrl, hus, hdir, hex, if_false, if_true, henv, pickedArgv]
    exact ⟨_, _, rfl⟩

/-- C8, at an instance: an empty request and an account without a login shell
exec `/bin/sh`. -/
theorem child_fork_argv_witness :
    ∃ envp path,
      child_fork_child exampleSys ⟨false, [], [], [], []⟩ exampleTable 2 6 8 =
        .exec ["/bin/sh".toList] envp path
          (afterExec [some ⟨.pipeR 0, false⟩, some ⟨.pipeW 1, false⟩, some ⟨.pipeW 2, false⟩,
            some ⟨.sock 0, false⟩, some ⟨.pipeW 0, true⟩, some ⟨.pipeR 1, true⟩,
            some ⟨.pipeW 1, true⟩, some ⟨.pipeR 2, true⟩, some ⟨.pipeW 2, true⟩]) :=
  (child_fork_argv exampleSys ⟨false, [], [], [], []⟩ exampleTable 2 6 8).2
    [some ⟨.pipeR 0, false⟩, some ⟨.pipeW 1, false⟩, some ⟨.pipeW 2, false⟩,
      some ⟨.sock 0, false⟩, some ⟨.pipeW 0, true⟩, some ⟨.pipeR 1, true⟩,
      some ⟨.pipeW 1, true⟩, some ⟨.pipeR 2, true⟩, some ⟨.pipeW 2, true⟩] exampleRoot
    (by decide) (by decide) (by decide) (by decide) (by decide) (by decide) (by decide)
    (by decide) (by decide)

/-- C9, the code at the failing input.  The request names the account `nobody`,
whose home directory does not exist, so `chdir(pw->pw_dir)` fails:
`child_setup_environment` reports it and returns NULL, and the child ends by
`abort()` from `assert(envp != NULL)`, not by `exit(255)`.  The sibling step, a
failed `chdir` to the request's dir for the same account, ends by `exit(255)`. -/
theorem child_fork_chdir_home_aborts :
    child_setup_environment exampleNobody none (-1) = none ∧
    child_fork_child
        { exampleSys with getpwnam := fun _ => some exampleNobody, chdir_home_rv := -1 }
        ⟨false, ["/bin/echo".toList], [], [], "nobody".toList⟩ exampleTable 2 6 8 = .abort ∧
    child_fork_child
        { exampleSys with getpwnam := fun _ => some exampleNobody, chdir_dir_rv := -1 }
        ⟨false, ["/bin/echo".toList], [], "/nonexistent".toList, "nobody".toList⟩
        exampleTable 2 6 8 = .exit 255 ∧
    ChildEnd.abort ≠ ChildEnd.exit 255 := by
  decide

/-- The steps of the child that end it by `exit(255)` when they fail, the three
`dup2` calls, `setsid` and the steps before the failing one having succeeded:
the account lookup, applying the rlimits, switching identity, `chdir` to the
request's dir, and `execvpe`. -/
theorem child_fork_exit_255 (sys : ChildSys) (req : Request) (t t' : FdTable)
    (fd_in fd_out fd_err : Int) (hdup : stdio_dup2 t fd_in fd_out fd_err = some t')
    (hsid : sys.setsid_rv ≠ -1) :
    (sys.getpwnam (lookupUser req) = none →
      child_fork_child sys req t fd_in fd_out fd_err = .exit 255) ∧
    (∀ pw, sys.getpwnam (lookupUser req) = some pw →
      ¬ (isatty t' fd_in = true ∧ sys.ioctl_rv = -1) →
        (sys.msg_rlimit_export_rv = -1 →
          child_fork_child sys req t fd_in fd_out fd_err = .exit 255) ∧
        (sys.msg_rlimit_export_rv ≠ -1 →
          (sys.msg_user_export_rv = -1 →
            child_fork_child sys req t fd_in fd_out fd_err = .exit 255) ∧
          (sys.msg_user_export_rv ≠ -1 → sys.chdir_home_rv ≠ -1 →
              ((req.dir.length ≠ 0 ∧ sys.chdir_dir_rv = -1) →
                child_fork_child sys req t fd_in fd_out fd_err = .exit 255) ∧
              (¬ (req.dir.length ≠ 0 ∧ sys.chdir_dir_rv = -1) → sys.exec_ok = false →
                child_fork_child sys req t fd_in fd_out fd_err = .exit 255)))) := by
  rw [child_fork_child_unfold]
  simp only [hdup, hsid, if_false]
  refine ⟨fun h => by rw [h], fun pw hpw htty => ?_⟩
  rw [hpw]
  simp only []
  rw [if_neg htty]
  refine ⟨fun h => by rw [if_pos h], fun hrl => ?_⟩
  rw [if_neg hrl]
  refine ⟨fun h => by rw [if_pos h], fun hus hch => ?_⟩
  rw [if_neg hus, child_setup_environment_eq _ _ _ hch]
  simp only []
  refine ⟨fun h => by rw [if_pos h], fun hdir hex => ?_⟩
  rw [if_neg hdir]
  simp [hex]

/-! ## The registry -/

theorem pid_index_eq_none {pid : Int} {reg : List PidFd} (h : ∀ e ∈ reg, e.pid ≠ pid) :
    pid_index pid reg = none := by
  induction reg with
  | nil => rfl
  | cons e rest ih =>
    have he : e.pid ≠ pid := h e (List.mem_cons_self _ _)
    simp [pid_index, he, ih fun x hx => h x (List.mem_cons_of_mem _ hx)]

theorem pid_index_append {pid fd : Int} (pre post : List PidFd) (h : ∀ e ∈ pre, e.pid ≠ pid) :
    pid_index pid (pre ++ ⟨pid, fd⟩ :: post) = some pre.length := by
  induction pre with
  | nil => simp [pid_index]
  | cons e rest ih =>
    have he : e.pid ≠ pid := h e (List.mem_cons_self _ _)
    simp [pid_index, he, ih fun x hx => h x (List.mem_cons_of_mem _ hx)]

theorem child_pid_to_fd_remove_absent (w : Daemon) (pid : Int)
    (h : ∀ e ∈ w.pid_to_fd, e.pid ≠ pid) : child_pid_to_fd_remove w pid = (-1, w) := by
  simp [child_pid_to_fd_remove, pid_index_eq_none h]

theorem child_pid_to_fd_remove_present (w : Daemon) (pid fd : Int) (pre post : List PidFd)
    (hreg : w.pid_to_fd = pre ++ ⟨pid, fd⟩ :: post) (h : ∀ e ∈ pre, e.pid ≠ pid) :
    child_pid_to_fd_remove w pid = (fd, { w with pid_to_fd := pre ++ post }) := by
  unfold child_pid_to_fd_remove
  rw [hreg, pid_index_append pre post h]
  simp only [List.length_append, List.length_cons]
  have hget : (pre ++ (⟨pid, fd⟩ : PidFd) :: post).get? pre.length = some ⟨pid, fd⟩ := by
    rw [List.get?_eq_getElem?, List.getElem?_append_right (Nat.le_refl _)]
    simp
  rw [hget]
  simp only [Option.elim]
  congr 1
  congr 1
  cases post with
  | nil => simp
  | cons x xs =>
    simp only [List.length_cons]
    have hlt : pre.length + 1 < pre.length + (xs.length + 1 + 1) := by omega
    rw [if_pos hlt]
    unfold memmove
    have h1 : (pre ++ (⟨pid, fd⟩ : PidFd) :: x :: xs).take pre.length = pre := by simp
    have h2 : (pre ++ (⟨pid, fd⟩ : PidFd) :: x :: xs).drop (pre.length + 1) = x :: xs := by
      rw [← List.drop_drop]; simp
    have h3 : pre.length + (xs.length + 1 + 1) - pre.length - 1 = (x :: xs).length := by
      simp only [List.length_cons]; omega
    rw [h1, h2, h3, List.take_length, List.append_assoc, ← List.append_assoc pre]
    have h4 : pre.length + (xs.length + 1 + 1) - 1 = (pre ++ x :: xs).length := by
      simp only [List.length_append, List.length_cons]; omega
    rw [h4, List.take_left']
    rfl

theorem child_pid_to_fd_add_fd_ne (emfile : Bool) (w w' : Daemon) (pid fd : Int)
    (h : child_pid_to_fd_add emfile w pid fd = some w') (hinv : ∀ e ∈ w.pid_to_fd, e.fd ≠ -1) :
    ∀ e ∈ w'.pid_to_fd, e.fd ≠ -1 := by
  unfold child_pid_to_fd_add at h
  cases hg : fdGet w.fds fd with
  | none => simp [hg] at h
  | some d =>
    cases emfile with
    | true => simp [hg] at h
    | false =>
      simp only [hg, fdAlloc, Bool.false_eq_true, if_false, Option.some.injEq] at h
      subst h
      intro e he
      simp only [List.mem_append, List.mem_singleton] at he
      rcases he with he | he
      · exact hinv e he
      · subst he
        simp only [ne_eq]
        omega

theorem child_handle_sigchld_exited (w : Daemon) (pid fd : Int) (status : Nat)
    (rest : List (Int × Nat)) (pre post : List PidFd) (hpid : 0 < pid) (hfd : fd ≠ -1)
    (hreg : w.pid_to_fd = pre ++ ⟨pid, fd⟩ :: post) (hpre : ∀ e ∈ pre, e.pid ≠ pid)
    (hex : WIFEXITED status = true) :
    child_handle_sigchld w ((pid, status) :: rest) =
      child_handle_sigchld
        { w with
          pid_to_fd := pre ++ post
          fds := fdClose w.fds fd
          log := w.log ++ [.write fd ((fdGet w.fds fd).map (·.obj)) (WEXITSTATUS status),
            .close fd] } rest := by
  have hp : ¬ pid ≤ 0 := by omega
  rw [child_handle_sigchld]
  simp [hp, child_pid_to_fd_remove_present w pid fd pre post hreg hpre, hfd, hex,
    sys_write, sys_close]

theorem child_handle_sigchld_signaled (w : Daemon) (pid fd : Int) (status : Nat)
    (rest : List (Int × Nat)) (pre post : List PidFd) (hpid : 0 < pid) (hfd : fd ≠ -1)
    (hreg : w.pid_to_fd = pre ++ ⟨pid, fd⟩ :: post) (hpre : ∀ e ∈ pre, e.pid ≠ pid)
    (hex : WIFEXITED status = false) (hsig : WIFSIGNALED status = true) :
    child_handle_sigchld w ((pid, status) :: rest) =
      child_handle_sigchld
        { w with
          pid_to_fd := pre ++ post
          fds := fdClose w.fds fd
          log := w.log ++ [.close fd] } rest := by
  have hp : ¬ pid ≤ 0 := by omega
  rw [child_handle_sigchld]
  simp [hp, child_pid_to_fd_remove_present w pid fd pre post hreg hpre, hfd, hex, hsig,
    sys_close]

set_option maxRecDepth 20000 in
/-- The wait status of a child that called `exit(s)`, `s` in 0..255, reads as
exited with status `s`. -/
theorem wait_status_exited : ∀ s < 256,
    WIFEXITED (s * 256) = true ∧ WEXITSTATUS (s * 256) = s ∧ WIFSIGNALED (s * 256) = false := by
  decide

/-- The wait status of a child killed by signal 1..64, with or without a core
dump, reads as signalled and not as exited. -/
theorem wait_status_signaled : ∀ sig < 65, 0 < sig →
    WIFEXITED sig = false ∧ WIFSIGNALED sig = true ∧
    WIFEXITED (sig + 128) = false ∧ WIFSIGNALED (sig + 128) = true := by
  decide

/-! ## C2: the reaper and the registry -/

theorem pump_loop_passes_continue (pid_file : Option CStr) (sys : ClientSys) (efd : Int)
    (pplen : Nat) (pre l : List Pass) (hpre : ∀ q ∈ pre, q.select_rv ≠ -1 ∧ q.ready = false) :
    pump_loop_passes pid_file sys efd pplen (pre ++ l) =
      ((pre.map (pass_events efd pplen)).flatten ++ (pump_loop_passes pid_file sys efd pplen l).1,
        (pump_loop_passes pid_file sys efd pplen l).2) := by
  induction pre with
  | nil => simp
  | cons q qs ih =>
    obtain ⟨h1, h2⟩ := hpre q (List.mem_cons_self _ _)
    have ih' := ih fun x hx => hpre x (List.mem_cons_of_mem _ hx)
    rw [List.cons_append, pump_loop_passes]
    simp only [h1, h2, if_false, ih', Bool.false_eq_true]
    simp [pass_events, List.append_assoc]

theorem pump_loop_eq (pid_file : Option CStr) (sys : ClientSys) (pid_fd efd : Int) (pplen : Nat)
    (passes : List Pass) (hpid : 0 ≤ sys.pid_read_rv)
    (hopen : pid_file ≠ none → sys.open_rv ≠ -1) :
    pump_loop pid_file sys pid_fd efd pplen passes =
      (prologue_events pid_file sys pid_fd ++ (pump_loop_passes pid_file sys efd pplen passes).1,
        (pump_loop_passes pid_file sys efd pplen passes).2) := by
  have h : ¬ sys.pid_read_rv < 0 := by omega
  unfold pump_loop prologue_events
  cases pid_file with
  | none => simp [h]
  | some f => simp [h, hopen (by simp)]

theorem pump_loop_passes_ready (pid_file : Option CStr) (sys : ClientSys) (efd : Int)
    (pplen : Nat) (it : Pass) (rest : List Pass) (hsel : it.select_rv ≠ -1)
    (hready : it.ready = true) (hrv : it.read_rv = 0 ∨ it.read_rv = 4) :
    pump_loop_passes pid_file sys efd pplen (it :: rest) =
      (pass_events efd pplen it ++ [.read_exit_status efd]
          ++ (List.range pplen).map .pump_pair_copy
          ++ (if pid_file.isSome then [.unlink_pidfile] else []),
        if pid_file.isSome ∧ sys.unlink_rv ≠ 0 then .exit 255
        else if it.read_rv = 0 then .exit 255 else .exit it.status) := by
  rw [pump_loop_passes]
  rcases hrv with hrv | hrv
  · cases pid_file with
    | none => simp [hsel, hready, hrv, cleanup_pidfile, pass_events, for_pairs]
    | some f =>
      by_cases hu : sys.unlink_rv = 0
      · simp [hsel, hready, hrv, cleanup_pidfile, pass_events, for_pairs, hu]
      · simp [hsel, hready, hrv, cleanup_pidfile, pass_events, for_pairs, hu]
  · cases pid_file with
    | none => simp [hsel, hready, hrv, cleanup_pidfile, pass_events, for_pairs]
    | some f =>
      by_cases hu : sys.unlink_rv = 0
      · simp [hsel, hready, hrv, cleanup_pidfile, pass_events, for_pairs, hu]
      · simp [hsel, hready, hrv, cleanup_pidfile, pass_events, for_pairs, hu]

theorem read_exit_status_not_mem_pass_events (efd : Int) (pplen : Nat) (q : Pass) :
    ClientEv.read_exit_status efd ∉ pass_events efd pplen q := by
  simp only [pass_events, for_pairs, List.mem_append, List.mem_map, List.mem_replicate, not_or]
  refine ⟨⟨⟨⟨by simp, by simp⟩, ?_⟩, by simp⟩, by simp⟩
  split_ifs <;> simp

theorem read_exit_status_not_mem_prologue (pid_file : Option CStr) (sys : ClientSys)
    (pid_fd efd : Int) : ClientEv.read_exit_status efd ∉ prologue_events pid_file sys pid_fd := by
  cases pid_file <;> simp [prologue_events]

theorem pump_loop_ready (pid_file : Option CStr) (sys : ClientSys) (pid_fd efd : Int)
    (pplen : Nat) (pre : List Pass) (it : Pass) (rest : List Pass)
    (hpid : 0 ≤ sys.pid_read_rv) (hopen : pid_file ≠ none → sys.open_rv ≠ -1)
    (hpre : ∀ q ∈ pre, q.select_rv ≠ -1 ∧ q.ready = false)
    (hsel : it.select_rv ≠ -1) (hready : it.ready = true)
    (hrv : it.read_rv = 0 ∨ it.read_rv = 4) :
    pump_loop pid_file sys pid_fd efd pplen (pre ++ it :: rest) =
      (prologue_events pid_file sys pid_fd ++ ((pre.map (pass_events efd pplen)).flatten
          ++ (pass_events efd pplen it ++ [.read_exit_status efd]
            ++ (List.range pplen).map .pump_pair_copy
            ++ (if pid_file.isSome then [.unlink_pidfile] else []))),
        if pid_file.isSome ∧ sys.unlink_rv ≠ 0 then .exit 255
        else if it.read_rv = 0 then .exit 255 else .exit it.status) := by
  rw [pump_loop_eq _ _ _ _ _ _ hpid hopen, pump_loop_passes_continue _ _ _ _ _ _ hpre,
    pump_loop_passes_ready _ _ _ _ _ _ hsel hready hrv]

/-- C4.  In a pass of the pump loop that finds the exit-status descriptor ready,
with the status delivered (4 bytes read) or at end of file (0 bytes read), the
calls from the one `read` of the exit status on are: `pump_pair_copy` on each
of the `pplen` pairs, once and in order, then the removal of the pidfile if one
was asked for, then the exit.  No exit with the child's outcome comes before
that drain. -/
theorem pump_loop_final_drain (pid_file : Option CStr) (sys : ClientSys) (pid_fd efd : Int)
    (pplen : Nat) (pre : List Pass) (it : Pass) (rest : List Pass)
    (hpid : 0 ≤ sys.pid_read_rv) (hopen : pid_file ≠ none → sys.open_rv ≠ -1)
    (hpre : ∀ q ∈ pre, q.select_rv ≠ -1 ∧ q.ready = false)
    (hsel : it.select_rv ≠ -1) (hready : it.ready = true)
    (hrv : it.read_rv = 0 ∨ it.read_rv = 4) :
    ∃ before,
      ClientEv.read_exit_status efd ∉ before ∧
      (pump_loop pid_file sys pid_fd efd pplen (pre ++ it :: rest)).1 =
        before ++ [.read_exit_status efd] ++ (List.range pplen).map .pump_pair_copy
          ++ (if pid_file.isSome then [.unlink_pidfile] else []) ∧
      (pump_loop pid_file sys pid_fd efd pplen (pre ++ it :: rest)).2 =
        if pid_file.isSome ∧ sys.unlink_rv ≠ 0 then .exit 255
        else if it.read_rv = 0 then .exit 255 else .exit it.status := by
  rw [pump_loop_ready _ _ _ _ _ _ _ _ hpid hopen hpre hsel hready hrv]
  refine ⟨prologue_events pid_file sys pid_fd ++ (pre.map (pass_events efd pplen)).flatten
    ++ pass_events efd pplen it, ?_, ?_, rfl⟩
  · simp only [List.mem_append, List.mem_flatten, List.mem_map, not_or, not_exists, not_and]
    refine ⟨⟨read_exit_status_not_mem_prologue _ _ _ _, ?_⟩,
      read_exit_status_not_mem_pass_events _ _ _⟩
    rintro l ⟨q, -, rfl⟩
    exact read_exit_status_not_mem_pass_events _ _ _
  · simp only [List.append_assoc]

/-- C4, at an instance: three pairs, one idle pass, then end of file on the
exit-status descriptor 6. -/
theorem pump_loop_final_drain_witness :
    ∃ before,
      ClientEv.read_exit_status 6 ∉ before ∧
      (pump_loop none ⟨4, 12, 0, 0, 0⟩ 7 6 3 [⟨0, 1, false, 0, 0⟩, ⟨1, 1, true, 0, 0⟩]).1 =
        before ++ [.read_exit_status 6]
          ++ [.pump_pair_copy 0, .pump_pair_copy 1, .pump_pair_copy 2] ++ [] ∧
      (pump_loop none ⟨4, 12, 0, 0, 0⟩ 7 6 3 [⟨0, 1, false, 0, 0⟩, ⟨1, 1, true, 0, 0⟩]).2 =
        .exit 255 :=
  pump_loop_final_drain none ⟨4, 12, 0, 0, 0⟩ 7 6 3
    [⟨0, 1, false, 0, 0⟩] ⟨1, 1, true, 0, 0⟩ [] (by decide) (by decide) (by decide) (by decide)
    rfl (by decide)

/-! ## C1: the exit status from the reaper to the client -/

theorem WEXITSTATUS_lt (status : Nat) : WEXITSTATUS status < 256 := by
  unfold WEXITSTATUS
  have h : status &&& 0xff00 ≤ 0xff00 := Nat.and_le_right
  rw [Nat.shiftRight_eq_div_pow]
  omega

theorem bytes_int_int_bytes (v : Int) (h0 : -2147483648 ≤ v) (h1 : v < 2147483648) :
    bytes_int (int_bytes v) = v := by
  unfold bytes_int int_bytes
  simp only [List.getD_cons_zero, List.getD_cons_succ]
  split_ifs <;> omega

theorem int_bytes_length (v : Int) : (int_bytes v).length = 4 := rfl

theorem read_status_int_bytes (v : Nat) (hv : v < 256) (more : List Nat) (n : Nat) :
    read_status ⟨int_bytes (v : Int) ++ more, n⟩ = some (4, (v : Int)) := by
  have hb := bytes_int_int_bytes (v : Int) (by omega) (by omega)
  have ht : (int_bytes (v : Int) ++ more).take 4 = int_bytes (v : Int) := by
    rw [List.take_append_of_le_length (by rw [int_bytes_length])]
    exact List.take_of_length_le (by rw [int_bytes_length])
  unfold read_status
  simp only [ht, hb, int_bytes_length, List.length_append]
  simp

/-- C1 as stated fails in the exited case: pid 9 exits with status 3, the reaper
writes 3 to the registered descriptor 5, whose pipe has no other writer, the
client reads those 4 bytes, and the client, asked for a pidfile whose `unlink`
fails, exits with 255, not with 3. -/
theorem exit_status_unlink_counterexample :
    (child_handle_sigchld exampleDaemon [(9, 0x0300)]).map (·.log) =
      some [.write 5 (some (.pipeW 8)) 3, .close 5] ∧
    read_status (pipe_after 5 [.write 5 (some (.pipeW 8)) 3, .close 5] ⟨[], 1⟩) = some (4, 3) ∧
    (pump_loop (some "pid".toList) ⟨4, 12, 5, 0, -1⟩ 7 6 3 [⟨0, 1, true, 4, 3⟩]).2 =
      .exit 255 ∧
    exit_status 255 ≠ (((3 : Nat) &&& 0xff : Nat) : Int) := by
  decide

/-- C1, amended.  For a registered child.  When it exited normally the reaper
writes the `int` `WEXITSTATUS(status)`, a value in 0..255, to the registered
descriptor and closes it: the four bytes are queued in the pipe behind that
descriptor and one writer goes; a `read` that finds those four bytes at the
head of the queue returns 4 and that value; and the client's `pump_loop`, having
read them, exits with that value, which is its own low eight bits, except that
it exits with 255 when a pidfile was asked for and its `unlink` fails.  When the
child was killed by a signal the reaper writes nothing and closes the
registered descriptor: nothing is queued and one writer goes; and a client
whose `read` returns 0 bytes exits with 255. -/
theorem exit_status_delivery (w : Daemon) (pid fd : Int) (status : Nat) (pre post : List PidFd)
    (hpid : 0 < pid) (hfd : fd ≠ -1) (hreg : w.pid_to_fd = pre ++ ⟨pid, fd⟩ :: post)
    (hpre : ∀ e ∈ pre, e.pid ≠ pid)
    (pid_file : Option CStr) (sys : ClientSys) (pid_fd efd : Int) (pplen : Nat)
    (idle : List Pass) (it : Pass) (rest : List Pass)
    (hpidrd : 0 ≤ sys.pid_read_rv) (hopen : pid_file ≠ none → sys.open_rv ≠ -1)
    (hidle : ∀ q ∈ idle, q.select_rv ≠ -1 ∧ q.ready = false)
    (hsel : it.select_rv ≠ -1) (hready : it.ready = true) :
    (WIFEXITED status = true →
      ∃ w', child_handle_sigchld w [(pid, status)] = some w' ∧
        w'.log = w.log ++
          [.write fd ((fdGet w.fds fd).map (·.obj)) (WEXITSTATUS status), .close fd] ∧
        WEXITSTATUS status < 256 ∧
        (∀ p : Pipe, pipe_after fd
            [.write fd ((fdGet w.fds fd).map (·.obj)) (WEXITSTATUS status), .close fd] p =
          ⟨p.buf ++ int_bytes (WEXITSTATUS status), p.writers - 1⟩) ∧
        (∀ more n, read_status ⟨int_bytes (WEXITSTATUS status) ++ more, n⟩ =
          some (4, (WEXITSTATUS status : Int))) ∧
        (it.read_rv = 4 → it.status = (WEXITSTATUS status : Int) →
          (pump_loop pid_file sys pid_fd efd pplen (idle ++ it :: rest)).2 =
            if pid_file.isSome ∧ sys.unlink_rv ≠ 0 then .exit 255
            else .exit (WEXITSTATUS status)) ∧
        exit_status (WEXITSTATUS status) = ((WEXITSTATUS status &&& 0xff : Nat) : Int)) ∧
    (WIFEXITED status = false → WIFSIGNALED status = true →
      ∃ w', child_handle_sigchld w [(pid, status)] = some w' ∧
        w'.log = w.log ++ [.close fd] ∧
        (∀ p : Pipe, pipe_after fd [.close fd] p = ⟨p.buf, p.writers - 1⟩) ∧
        (it.read_rv = 0 →
          (pump_loop pid_file sys pid_fd efd pplen (idle ++ it :: rest)).2 = .exit 255)) := by
  have hlt := WEXITSTATUS_lt status
  constructor
  · intro hex
    refine ⟨{ w with
        pid_to_fd := pre ++ post
        fds := fdClose w.fds fd
        log := w.log ++ [.write fd ((fdGet w.fds fd).map (·.obj)) (WEXITSTATUS status),
          .close fd] }, ?_, rfl, hlt, ?_, ?_, ?_, ?_⟩
    · rw [child_handle_sigchld_exited w pid fd status [] pre post hpid hfd hreg hpre hex]
      rfl
    · intro p
      simp [pipe_after]
    · exact read_status_int_bytes _ hlt
    · intro h4 hst
      rw [pump_loop_ready _ _ _ _ _ _ _ _ hpidrd hopen hidle hsel hready (Or.inr h4)]
      simp only [h4, hst]
      split_ifs <;> first | rfl | omega
    · unfold exit_status
      have h255 : WEXITSTATUS status &&& 0xff = WEXITSTATUS status % 256 :=
        Nat.and_pow_two_sub_one_eq_mod _ 8
      rw [h255]
      omega
  · intro hex hsig
    refine ⟨{ w with
        pid_to_fd := pre ++ post
        fds := fdClose w.fds fd
        log := w.log ++ [.close fd] }, ?_, rfl, ?_, ?_⟩
    · rw [child_handle_sigchld_signaled w pid fd status [] pre post hpid hfd hreg hpre hex hsig]
      rfl
    · intro p
      simp [pipe_after]
    · intro hrd
      rw [pump_loop_ready _ _ _ _ _ _ _ _ hpidrd hopen hidle hsel hready (Or.inl hrd)]
      simp only [hrd]
      split_ifs <;> rfl

/-- C1 amended, at an instance: pid 9 of `exampleDaemon` exits with status 3;
the reaper writes 3 to descriptor 5 and closes it, and a client without pidfile
that reads those four bytes exits with 3. -/
theorem exit_status_delivery_witness :
    ∃ w', child_handle_sigchld exampleDaemon [(9, 0x0300)] = some w' ∧
      w'.log = [.write 5 (some (.pipeW 8)) 3, .close 5] ∧
      (pump_loop none ⟨4, 12, 0, 0, 0⟩ 7 6 3 [⟨0, 1, false, 0, 0⟩, ⟨0, 1, true, 4, 3⟩]).2 =
        .exit 3 := by
  obtain ⟨w', e1, e2, -, -, -, e5, -⟩ :=
    (exit_status_delivery exampleDaemon 9 5 0x0300 [⟨7, 4⟩] [] (by decide) (by decide) rfl
      (by decide) none ⟨4, 12, 0, 0, 0⟩ 7 6 3 [⟨0, 1, false, 0, 0⟩] ⟨0, 1, true, 4, 3⟩ []
      (by decide) (by decide) (by decide) (by decide) rfl).1 (by decide)
  exact ⟨w', e1, e2.trans (by decide), (e5 rfl (by decide)).trans (by decide)⟩

/-- The write end left open in a later session's child withholds the end of
file.  After the two sessions of `secondSession` the write end of the first
session's exit-status pipe 5 has two holders, the registry's descriptor 13 and
descriptor 13 of the second child.  When pid 12 is killed by signal 9 the
reaper closes descriptor 13 and writes nothing; one writer is left, and a
`read` on the read end would block instead of returning 0 bytes. -/
theorem killed_child_eof_withheld :
    (sessionDaemon secondSession).map (fun w => holders w.fds (.pipeW 5)) = some [13] ∧
    (sessionChildFds secondSession).map (fun t => holders t (.pipeW 5)) = some [13] ∧
    ((sessionDaemon secondSession).bind fun w =>
        (child_handle_sigchld w [(12, 9)]).map (·.log.getLast?)) = some (some (.close 13)) ∧
    ((sessionDaemon secondSession).bind fun w =>
        (child_handle_sigchld w [(12, 9)]).map (·.pid_to_fd)) = some [⟨13, 14⟩] ∧
    pipe_after 13 [.close 13] ⟨[], 2⟩ = ⟨[], 1⟩ ∧
    read_status ⟨[], 1⟩ = none := by
  decide

/-! ## Descriptor tables -/

@[simp] theorem fdGet_natCast (t : FdTable) (n : Nat) : fdGet t (n : Int) = slot t n := rfl

theorem slot_setSlot : ∀ (t : FdTable) (n : Nat) (d : Option Desc) (m : Nat),
    slot (setSlot t n d) m = if m = n then d else slot t m
  | [], 0, _, 0 => rfl
  | [], 0, _, m + 1 => by simp [setSlot, slot]
  | [], n + 1, _, 0 => by simp [setSlot, slot]
  | [], n + 1, d, m + 1 => by simp [setSlot, slot, slot_setSlot [] n d m]
  | _ :: _, 0, _, 0 => rfl
  | _ :: _, 0, _, m + 1 => by simp [setSlot, slot]
  | _ :: _, n + 1, _, 0 => by simp [setSlot, slot]
  | _ :: t, n + 1, d, m + 1 => by simp [setSlot, slot, slot_setSlot t n d m]

theorem slot_lowestFree : ∀ t : FdTable, slot t (lowestFree t) = none
  | [] => rfl
  | none :: _ => rfl
  | some _ :: t => by simp [lowestFree, slot, slot_lowestFree t]

/-- C10, the code at the failing input.  After the first session's handler has
returned, its exit-status pipe is pipe 5 (the fourth descriptor sent is its
read end), the registry entry `(12, 13)` holds the daemon's only descriptor for
the write end and the daemon holds none for the read end.  The child of the
second session, forked before pid 12 is reaped, still has descriptor 13 on that
write end after its `exec`: the duplicate that `child_pid_to_fd_add` stores is
not close-on-exec. -/
theorem later_child_holds_exit_status_write_end :
    (sessionDaemon firstSession).map (·.pid_to_fd) = some [⟨12, 13⟩] ∧
    (sessionDaemon firstSession).map (·.log.head?) =
      some (some (.send 1 [4, 5, 7, 9, 11]
        [some (.pipeW 2), some (.pipeR 3), some (.pipeR 4), some (.pipeR 5), some (.pipeR 6)])) ∧
    (sessionDaemon firstSession).map (fun w => holders w.fds (.pipeW 5)) = some [13] ∧
    (sessionDaemon firstSession).map (fun w => holders w.fds (.pipeR 5)) = some [] ∧
    (sessionDaemon firstSession).map (fun w => slot w.fds 13) =
      some (some ⟨.pipeW 5, false⟩) ∧
    (sessionChildFds secondSession).map (fun t => holders t (.pipeW 5)) = some [13] := by
  decide

/-! ## C14: the registry as a list -/

theorem exists_first_pid {pid : Int} : ∀ {reg : List PidFd}, (∃ e ∈ reg, e.pid = pid) →
    ∃ pre fd post, reg = pre ++ ⟨pid, fd⟩ :: post ∧ ∀ e ∈ pre, e.pid ≠ pid
  | [], h => by simp at h
  | x :: xs, h => by
    by_cases hx : x.pid = pid
    · exact ⟨[], x.fd, xs, by cases x; simp_all, by simp⟩
    · have h' : ∃ e ∈ xs, e.pid = pid := by
        obtain ⟨e, he, hp⟩ := h
        simp only [List.mem_cons] at he
        rcases he with rfl | he
        · exact absurd hp hx
        · exact ⟨e, he, hp⟩
      obtain ⟨pre, fd, post, h1, h2⟩ := exists_first_pid h'
      refine ⟨x :: pre, fd, post, by simp [h1], ?_⟩
      intro e he
      simp only [List.mem_cons] at he
      rcases he with rfl | he
      · exact hx
      · exact h2 e he

/-- C14.  With every stored descriptor different from -1:
`child_pid_to_fd_remove` returns -1 and leaves the list unchanged exactly when
no entry has the pid; when one has, it returns the descriptor of the first such
entry and the list is the original with that one entry deleted, whatever
stands before and after it: one entry shorter, all others in place and in
order.  `child_pid_to_fd_add`, when its `dup` succeeds, appends one entry with
the pid and a descriptor that is not -1, and leaves the entries before it
unchanged. -/
theorem registry_as_list (w : Daemon) (pid : Int) (hinv : ∀ e ∈ w.pid_to_fd, e.fd ≠ -1) :
    (((child_pid_to_fd_remove w pid).1 = -1 ∧
        (child_pid_to_fd_remove w pid).2.pid_to_fd = w.pid_to_fd) ↔
      ∀ e ∈ w.pid_to_fd, e.pid ≠ pid) ∧
    ((∀ e ∈ w.pid_to_fd, e.pid ≠ pid) → child_pid_to_fd_remove w pid = (-1, w)) ∧
    ((∃ e ∈ w.pid_to_fd, e.pid = pid) →
      ∃ pre fd post, w.pid_to_fd = pre ++ ⟨pid, fd⟩ :: post ∧ (∀ e ∈ pre, e.pid ≠ pid) ∧
        child_pid_to_fd_remove w pid = (fd, { w with pid_to_fd := pre ++ post }) ∧
        (pre ++ post).length + 1 = w.pid_to_fd.length ∧
        pre ++ post = w.pid_to_fd.eraseIdx pre.length) ∧
    (∀ fd d w', fdGet w.fds fd = some d →
      child_pid_to_fd_add false w pid fd = some w' →
      ∃ n : Nat, w'.pid_to_fd = w.pid_to_fd ++ [⟨pid, (n : Int)⟩] ∧
        w'.pid_to_fd.length = w.pid_to_fd.length + 1 ∧
        fdGet w.fds n = none ∧ fdGet w'.fds n = some ⟨d.obj, false⟩) ∧
    (∀ fd d, fdGet w.fds fd = some d → ∃ w', child_pid_to_fd_add false w pid fd = some w') := by
  have hpresent : (∃ e ∈ w.pid_to_fd, e.pid = pid) →
      ∃ pre fd post, w.pid_to_fd = pre ++ ⟨pid, fd⟩ :: post ∧ (∀ e ∈ pre, e.pid ≠ pid) ∧
        child_pid_to_fd_remove w pid = (fd, { w with pid_to_fd := pre ++ post }) := by
    intro h
    obtain ⟨pre, fd, post, h1, h2⟩ := exists_first_pid h
    exact ⟨pre, fd, post, h1, h2, child_pid_to_fd_remove_present w pid fd pre post h1 h2⟩
  refine ⟨⟨?_, ?_⟩, child_pid_to_fd_remove_absent w pid, ?_, ?_, ?_⟩
  · rintro ⟨h1, -⟩ e he hp
    obtain ⟨pre, fd, post, g1, -, g3⟩ := hpresent ⟨e, he, hp⟩
    rw [g3] at h1
    exact hinv ⟨pid, fd⟩ (by rw [g1]; simp) h1
  · intro h
    rw [child_pid_to_fd_remove_absent w pid h]
    exact ⟨rfl, rfl⟩
  · intro h
    obtain ⟨pre, fd, post, g1, g2, g3⟩ := hpresent h
    refine ⟨pre, fd, post, g1, g2, g3, ?_, ?_⟩
    · rw [g1]; simp only [List.length_append, List.length_cons]; omega
    rw [g1, List.eraseIdx_append_of_length_le (Nat.le_refl _)]
    simp
  · intro fd d w' hd hadd
    unfold child_pid_to_fd_add at hadd
    simp only [hd, Bool.false_eq_true, if_false, fdAlloc, Option.some.injEq] at hadd
    subst hadd
    refine ⟨lowestFree w.fds, rfl, by simp, ?_, ?_⟩
    · rw [fdGet_natCast]; exact slot_lowestFree w.fds
    · simp [slot_setSlot]
  · intro fd d hd
    unfold child_pid_to_fd_add
    simp [hd, fdAlloc]

/-- C14, at an instance: pid 7 has an entry in `exampleDaemon`; removing it
returns that entry's descriptor and leaves a list one entry shorter. -/
theorem registry_as_list_witness :
    ∃ pre fd post, exampleDaemon.pid_to_fd = pre ++ ⟨7, fd⟩ :: post ∧
      (∀ e ∈ pre, e.pid ≠ 7) ∧
      child_pid_to_fd_remove exampleDaemon 7 =
        (fd, { exampleDaemon with pid_to_fd := pre ++ post }) ∧
      (pre ++ post).length + 1 = exampleDaemon.pid_to_fd.length ∧
      pre ++ post = exampleDaemon.pid_to_fd.eraseIdx pre.length :=
  (registry_as_list exampleDaemon 7 (by decide)).2.2.1 ⟨⟨7, 4⟩, by decide, rfl⟩

/-! ## C11: the pidfile on the ways out of the pump loop -/

theorem pump_loop_passes_select_fail (pid_file : Option CStr) (sys : ClientSys) (efd : Int)
    (pplen : Nat) (it : Pass) (rest : List Pass) (hsel : it.select_rv = -1) :
    pump_loop_passes pid_file sys efd pplen (it :: rest) =
      ([ClientEv.pump_init] ++ for_pairs pplen .pump_add_pair
          ++ (if efd ≥ 0 then [.pump_add_fd efd] else [])
          ++ List.replicate (it.eintr + 1) .pump_select
          ++ (if pid_file.isSome then [.unlink_pidfile] else []),
        if pid_file.isSome ∧ sys.unlink_rv ≠ 0 then .exit 255 else .abort) := by
  rw [pump_loop_passes]
  cases pid_file with
  | none => simp [hsel, cleanup_pidfile]
  | some f =>
    by_cases hu : sys.unlink_rv = 0
    · simp [hsel, cleanup_pidfile, hu]
    · simp [hsel, cleanup_pidfile, hu]

/-- With a pidfile created, the three ways out of the pump loop that go through
`cleanup_pidfile` call `unlink` on it before the process ends: a failed
readiness wait, end of file on the exit-status descriptor, and a delivered
status. -/
theorem pump_loop_unlinks (f : CStr) (sys : ClientSys) (pid_fd efd : Int) (pplen : Nat)
    (idle : List Pass) (it : Pass) (rest : List Pass) (hpid : 0 ≤ sys.pid_read_rv)
    (hopen : sys.open_rv ≠ -1) (hidle : ∀ q ∈ idle, q.select_rv ≠ -1 ∧ q.ready = false)
    (hway : it.select_rv = -1 ∨
      (it.select_rv ≠ -1 ∧ it.ready = true ∧ (it.read_rv = 0 ∨ it.read_rv = 4))) :
    ∃ before,
      (pump_loop (some f) sys pid_fd efd pplen (idle ++ it :: rest)).1 =
        before ++ [.unlink_pidfile] ∧
      ClientEv.open_pidfile ∈ before ∧
      (pump_loop (some f) sys pid_fd efd pplen (idle ++ it :: rest)).2 ≠ .running := by
  rcases hway with hsel | ⟨hsel, hready, hrv⟩
  · rw [pump_loop_eq _ _ _ _ _ _ hpid (fun _ => hopen),
      pump_loop_passes_continue _ _ _ _ _ _ hidle, pump_loop_passes_select_fail _ _ _ _ _ _ hsel]
    refine ⟨prologue_events (some f) sys pid_fd ++ ((idle.map (pass_events efd pplen)).flatten
      ++ ([ClientEv.pump_init] ++ for_pairs pplen .pump_add_pair
          ++ (if efd ≥ 0 then [.pump_add_fd efd] else [])
          ++ List.replicate (it.eintr + 1) .pump_select)), ?_, ?_, ?_⟩
    · simp [List.append_assoc]
    · simp [prologue_events]
    · simp only [Option.isSome_some, true_and]
      split_ifs <;> simp
  · rw [pump_loop_ready _ _ _ _ _ _ _ _ hpid (fun _ => hopen) hidle hsel hready hrv]
    refine ⟨prologue_events (some f) sys pid_fd ++ ((idle.map (pass_events efd pplen)).flatten
      ++ (pass_events efd pplen it ++ [.read_exit_status efd]
        ++ (List.range pplen).map .pump_pair_copy)), ?_, ?_, ?_⟩
    · simp [List.append_assoc]
    · simp [prologue_events]
    · simp only [Option.isSome_some, true_and]
      split_ifs <;> simp

/-- C11, the code at the failing input.  The pidfile `pid` has been created and
the exit-status descriptor is ready.  When the `read` on it fails (-1), the
failed `assert(rv >= 0)` aborts the client and no `unlink` has been called;
when the `read` is short (2 bytes), the drain runs, the failed
`assert(rv == sizeof(status))` aborts and again no `unlink` has been called.
The sibling way out, a failed readiness wait, does call `unlink` before its
`abort()`. -/
theorem pump_loop_assert_keeps_pidfile :
    pump_loop (some "pid".toList) ⟨4, 12, 5, 0, 0⟩ 7 6 2 [⟨0, 1, true, -1, 0⟩] =
      ([.read_pid 7, .open_pidfile, .write_pidfile 12, .close 7,
        .pump_init, .pump_add_pair 0, .pump_add_pair 1, .pump_add_fd 6, .pump_select,
        .pump_pair_copy 0, .pump_pair_copy 1, .read_exit_status 6], .abort) ∧
    pump_loop (some "pid".toList) ⟨4, 12, 5, 0, 0⟩ 7 6 2 [⟨0, 1, true, 2, 0⟩] =
      ([.read_pid 7, .open_pidfile, .write_pidfile 12, .close 7,
        .pump_init, .pump_add_pair 0, .pump_add_pair 1, .pump_add_fd 6, .pump_select,
        .pump_pair_copy 0, .pump_pair_copy 1, .read_exit_status 6,
        .pump_pair_copy 0, .pump_pair_copy 1], .abort) ∧
    ClientEv.unlink_pidfile ∉
      (pump_loop (some "pid".toList) ⟨4, 12, 5, 0, 0⟩ 7 6 2 [⟨0, 1, true, -1, 0⟩]).1 ∧
    ClientEv.unlink_pidfile ∉
      (pump_loop (some "pid".toList) ⟨4, 12, 5, 0, 0⟩ 7 6 2 [⟨0, 1, true, 2, 0⟩]).1 ∧
    pump_loop (some "pid".toList) ⟨4, 12, 5, 0, 0⟩ 7 6 2 [⟨0, -1, false, 0, 0⟩] =
      ([.read_pid 7, .open_pidfile, .write_pidfile 12, .close 7,
        .pump_init, .pump_add_pair 0, .pump_add_pair 1, .pump_add_fd 6, .pump_select,
        .unlink_pidfile], .abort) := by
  decide

/-! ## C12, C13: the client's option scan -/

theorem rsh_loop_flag (w : wsh_t) (f : RshFlag) (hf : f.valid) (l : List CStr) (hl : l ≠ []) :
    rsh_loop w (f.words ++ l) = rsh_loop { w with user := f.login?.or w.user } l := by
  obtain ⟨b, rest, rfl⟩ := List.exists_cons_of_ne_nil hl
  cases f with
  | plain c =>
    have hc : c ∈ "46dn".toList := hf
    have hc' : c = '4' ∨ c = '6' ∨ c = 'd' ∨ c = 'n' := by simpa using hc
    simp only [RshFlag.words, List.singleton_append, RshFlag.login?, Option.none_or]
    rw [rsh_loop]
    rcases hc' with rfl | rfl | rfl | rfl <;> simp
  | login u =>
    simp only [RshFlag.words, List.cons_append, List.nil_append, RshFlag.login?, Option.or_some]
    rw [rsh_loop]
    simp
  | timeout t =>
    simp only [RshFlag.words, List.cons_append, List.nil_append, RshFlag.login?, Option.none_or]
    rw [rsh_loop]
    simp

theorem rsh_loop_host (w : wsh_t) (host : CStr) (hh : host.head? ≠ some '-')
    (rest : List CStr) : rsh_loop w (host :: rest) = getopt_loop w rest := by
  cases rest with
  | nil => rw [rsh_loop]; simp [hh]
  | cons b r => rw [rsh_loop]; simp [hh]

theorem lastLogin_cons (f : RshFlag) (fs : List RshFlag) (u : Option CStr) :
    (lastLogin (f :: fs)).or u = (lastLogin fs).or (f.login?.or u) := by
  unfold lastLogin
  cases hf : f.login? with
  | none => simp [List.filterMap_cons, hf]
  | some v =>
    simp only [List.filterMap_cons, hf, List.getLast?_cons, Option.or_some]
    cases (List.filterMap RshFlag.login? fs).getLast? <;> simp

/-- The inner loop over valid flags followed by a host word: the user is the
USER of the last `-l`, the host is skipped, the outer loop goes on after it. -/
theorem rsh_loop_flags : ∀ (flags : List RshFlag) (w : wsh_t) (host : CStr) (rest : List CStr),
    (∀ f ∈ flags, f.valid) → host.head? ≠ some '-' →
    rsh_loop w ((flags.map RshFlag.words).flatten ++ host :: rest) =
      getopt_loop { w with user := (lastLogin flags).or w.user } rest
  | [], w, host, rest, _, hh => by
    simp only [List.map_nil, List.flatten_nil, List.nil_append]
    rw [rsh_loop_host w host hh rest]
    rfl
  | f :: fs, w, host, rest, hv, hh => by
    simp only [List.map_cons, List.flatten_cons, List.append_assoc]
    rw [rsh_loop_flag w f (hv f (List.mem_cons_self _ _)) _ (by simp),
      rsh_loop_flags fs _ host rest (fun x hx => hv x (List.mem_cons_of_mem _ hx)) hh]
    simp only [lastLogin_cons]

theorem getopt_loop_help (w : wsh_t) (h : CStr) (hh : h = "-h".toList ∨ h = "--help".toList)
    (rest : List CStr) : getopt_loop w (h :: rest) = .usage := by
  cases rest with
  | nil => rcases hh with rfl | rfl <;> (rw [getopt_loop]; simp)
  | cons b r => rcases hh with rfl | rfl <;> (rw [getopt_loop]; simp)

theorem getopt_loop_words (w : wsh_t) (cmd : List CStr)
    (hc : ∀ a, cmd.head? = some a → a.head? ≠ some '-') :
    getopt_loop w cmd = getopt_finish w cmd := by
  match cmd, hc with
  | [], _ => rw [getopt_loop]
  | [a], hc => rw [getopt_loop]; simp [hc a rfl]
  | a :: b :: r, hc => rw [getopt_loop]; simp [hc a rfl]

/-- One valid option is consumed by the outer loop, which goes on after it. -/
theorem getopt_loop_opt (o : ClientOpt) (ho : o.valid) (w : wsh_t) (rest : List CStr) :
    ∃ w', getopt_loop w (o.words ++ rest) = getopt_loop w' rest := by
  cases o with
  | socket v =>
    refine ⟨{ w with socket_path := some v }, ?_⟩
    simp only [ClientOpt.words, List.cons_append, List.nil_append]
    rw [getopt_loop]
    simp
  | user v =>
    refine ⟨{ w with user := some v }, ?_⟩
    simp only [ClientOpt.words, List.cons_append, List.nil_append]
    rw [getopt_loop]
    simp
  | dir v =>
    refine ⟨{ w with dir := some v }, ?_⟩
    simp only [ClientOpt.words, List.cons_append, List.nil_append]
    rw [getopt_loop]
    simp
  | pidfile v =>
    refine ⟨{ w with pid_file := some v }, ?_⟩
    simp only [ClientOpt.words, List.cons_append, List.nil_append]
    rw [getopt_loop]
    simp
  | env v =>
    refine ⟨{ w with environment_variables := w.environment_variables ++ [v] }, ?_⟩
    simp only [ClientOpt.words, List.cons_append, List.nil_append]
    rw [getopt_loop]
    simp
  | rsh flags host =>
    obtain ⟨hf, hh⟩ : (∀ f ∈ flags, f.valid) ∧ host.head? ≠ some '-' := ho
    refine ⟨{ w with user := (lastLogin flags).or w.user }, ?_⟩
    rw [← rsh_loop_flags flags w host rest hf hh]
    simp only [ClientOpt.words, List.cons_append, List.append_assoc, List.singleton_append,
      List.nil_append]
    obtain ⟨b, r, hbr⟩ : ∃ b r, (flags.map RshFlag.words).flatten ++ host :: rest = b :: r :=
      List.exists_cons_of_ne_nil (by simp)
    rw [hbr, getopt_loop]
    simp

theorem getopt_loop_opts : ∀ (opts : List ClientOpt) (w : wsh_t) (rest : List CStr),
    (∀ o ∈ opts, o.valid) →
    ∃ w', getopt_loop w ((opts.map ClientOpt.words).flatten ++ rest) = getopt_loop w' rest
  | [], w, rest, _ => ⟨w, by simp⟩
  | o :: os, w, rest, hv => by
    obtain ⟨w1, h1⟩ := getopt_loop_opt o (hv o (List.mem_cons_self _ _)) w
      ((os.map ClientOpt.words).flatten ++ rest)
    obtain ⟨w2, h2⟩ := getopt_loop_opts os w1 rest (fun x hx => hv x (List.mem_cons_of_mem _ hx))
    exact ⟨w2, by simp only [List.map_cons, List.flatten_cons, List.append_assoc]; rw [h1, h2]⟩

theorem wsh__getopt_init (prog : CStr) (args : List CStr) :
    wsh__getopt (wsh_init (prog :: args)) = getopt_loop (wsh_init (prog :: args)) args := rfl

theorem wsh_main_getopt_eq (argv : List CStr) :
    wsh_main_getopt argv =
      match wsh__getopt (wsh_init argv) with
      | .ok w => .inr w
      | .usage => .inl (.exit 1)
      | .invalid _ => .inl (.exit 1)
      | .abort => .inl .abort := rfl

/-- C12 as stated fails: on `wsh -h` the scan reaches `-h`, `wsh__getopt` calls
`wsh__usage` and returns -1, and `main` exits with status 1, not 0. -/
theorem help_exit_status_counterexample :
    wsh__getopt (wsh_init ["wsh".toList, "-h".toList]) = .usage ∧
    wsh_main_getopt ["wsh".toList, "-h".toList] = .inl (.exit 1) ∧
    wsh_main_getopt ["wsh".toList, "-h".toList] ≠ .inl (.exit 0) := by
  decide

/-- C12, amended.  For every client argument list in which `-h` or `--help`
follows the program name and any sequence of valid options (an option with its
value, or `--rsh` with valid flags and a host word), whatever comes after it:
`wsh__getopt` prints the usage and returns -1, and the client exits with status
1. -/
theorem help_exits_one (prog : CStr) (opts : List ClientOpt) (h : CStr) (rest : List CStr)
    (hv : ∀ o ∈ opts, o.valid) (hh : h = "-h".toList ∨ h = "--help".toList) :
    wsh__getopt (wsh_init (prog :: (opts.map ClientOpt.words).flatten ++ h :: rest)) = .usage ∧
    (wsh__getopt (wsh_init (prog :: (opts.map ClientOpt.words).flatten ++ h :: rest))).rv =
      some (-1) ∧
    wsh_main_getopt (prog :: (opts.map ClientOpt.words).flatten ++ h :: rest) =
      .inl (.exit 1) := by
  have hu : wsh__getopt (wsh_init (prog :: (opts.map ClientOpt.words).flatten ++ h :: rest)) =
      .usage := by
    rw [List.cons_append, wsh__getopt_init]
    obtain ⟨w', hw⟩ := getopt_loop_opts opts
      (wsh_init (prog :: ((opts.map ClientOpt.words).flatten ++ h :: rest))) (h :: rest) hv
    rw [hw, getopt_loop_help w' h hh rest]
  refine ⟨hu, by rw [hu]; rfl, ?_⟩
  rw [wsh_main_getopt_eq, hu]

/-- C12 amended, at an instance: `wsh --socket s --rsh -4 host --help x` exits
with status 1. -/
theorem help_exits_one_witness :
    wsh_main_getopt ["wsh".toList, "--socket".toList, "s".toList, "--rsh".toList, "-4".toList,
      "host".toList, "--help".toList, "x".toList] = .inl (.exit 1) :=
  (help_exits_one "wsh".toList [.socket "s".toList, .rsh [.plain '4'] "host".toList]
    "--help".toList ["x".toList]
    (by
      intro o ho
      simp only [List.mem_cons, List.mem_singleton, List.not_mem_nil, or_false] at ho
      rcases ho with rfl | rfl
      · trivial
      · exact ⟨fun f hf => by
          simp only [List.mem_singleton] at hf
          subst hf
          show '4' ∈ "46dn".toList
          decide, by decide⟩)
    (Or.inr rfl)).2.2

/-- C13 as stated fails for a host word that starts with `-`: the inner loop
reads it as a flag.  On `--rsh -x /bin/id` (no flags, host `-x`, command
`/bin/id`) `wsh__getopt` reports `-x` as an invalid option and returns -1. -/
theorem rsh_host_counterexample :
    wsh__getopt (wsh_init ["wsh".toList, "--rsh".toList, "-x".toList, "/bin/id".toList]) =
      .invalid "-x".toList ∧
    (wsh__getopt (wsh_init ["wsh".toList, "--rsh".toList, "-x".toList, "/bin/id".toList])).rv =
      some (-1) := by
  decide

/-- C13, amended.  For the argument list `--rsh`, then any sequence of the flags
`-4`, `-6`, `-d`, `-n`, `-l USER`, `-t TIMEOUT`, then a host word that does not
start with `-`, then zero or more command words of which the first does not
start with `-`: `wsh__getopt` returns 0; the user is the USER of the last `-l`,
unset when there is none; the other flags, the timeout and the host leave no
trace; the command words, in order, are the command argv, which is NULL when
there is none. -/
theorem rsh_grammar (prog : CStr) (flags : List RshFlag) (host : CStr) (cmd : List CStr)
    (hv : ∀ f ∈ flags, f.valid) (hh : host.head? ≠ some '-')
    (hc : ∀ a, cmd.head? = some a → a.head? ≠ some '-') :
    wsh__getopt (wsh_init
        (prog :: "--rsh".toList :: (flags.map RshFlag.words).flatten ++ host :: cmd)) =
      .ok { argc := cmd.length
            argv := if cmd = [] then none else some cmd
            environment_variables := []
            socket_path := none
            user := lastLogin flags
            dir := none
            pid_file := none } ∧
    (wsh__getopt (wsh_init
        (prog :: "--rsh".toList :: (flags.map RshFlag.words).flatten ++ host :: cmd))).rv =
      some 0 := by
  have hk : wsh__getopt (wsh_init
        (prog :: "--rsh".toList :: (flags.map RshFlag.words).flatten ++ host :: cmd)) =
      .ok { argc := cmd.length
            argv := if cmd = [] then none else some cmd
            environment_variables := []
            socket_path := none
            user := lastLogin flags
            dir := none
            pid_file := none } := by
    rw [List.cons_append, List.cons_append, wsh__getopt_init]
    obtain ⟨b, r, hbr⟩ : ∃ b r, (flags.map RshFlag.words).flatten ++ host :: cmd = b :: r :=
      List.exists_cons_of_ne_nil (by simp)
    have h1 : getopt_loop (wsh_init (prog :: "--rsh".toList ::
          ((flags.map RshFlag.words).flatten ++ host :: cmd)))
        ("--rsh".toList :: ((flags.map RshFlag.words).flatten ++ host :: cmd)) =
        rsh_loop (wsh_init (prog :: "--rsh".toList ::
          ((flags.map RshFlag.words).flatten ++ host :: cmd)))
          ((flags.map RshFlag.words).flatten ++ host :: cmd) := by
      generalize wsh_init _ = w0
      rw [hbr, getopt_loop]
      simp
    rw [h1, rsh_loop_flags flags _ host cmd hv hh, getopt_loop_words _ cmd hc]
    cases cmd with
    | nil => simp [getopt_finish, wsh_init]
    | cons a r =>
      simp [getopt_finish, wsh_init]
      omega
  exact ⟨hk, by rw [hk]; rfl⟩

/-- C13 amended, at an instance: `--rsh -l alice hostname-ignored /bin/id` gives user
`alice` and argv `/bin/id`. -/
theorem rsh_grammar_witness :
    wsh__getopt (wsh_init ["wsh".toList, "--rsh".toList, "-l".toList, "alice".toList,
        "hostname-ignored".toList, "/bin/id".toList]) =
      .ok { argc := 1
            argv := some ["/bin/id".toList]
            environment_variables := []
            socket_path := none
            user := some "alice".toList
            dir := none
            pid_file := none } :=
  (rsh_grammar "wsh".toList [.login "alice".toList] "hostname-ignored".toList
    ["/bin/id".toList]
    (fun f hf => by
      simp only [List.mem_singleton] at hf
      subst hf
      trivial)
    (by decide) (by decide)).1

end Wshd
